import Mathlib

/-!
# MilongaApp playlist engine — verification of the specification claims

This file gives a shallow embedding of the playlist-assembly engine of the
MilongaApp repository (`agent/generate.js`, `agent/dj-lib.js`) and proves or
refutes the specification claims about it.

JavaScript strings are modelled as lists of UTF-16 code units (`JStr`,
`List Nat`).  JavaScript numbers appearing as durations, tempos and scores are
modelled as rationals (`Rat`); `Math.round` is `jsRound` (round half towards
positive infinity).  The generative-oracle calls (OpenAI agent runs) are the
only external nondeterminism; their schema-validated outputs are taken as
inputs of the embedded functions.
-/

/-- JavaScript string: a sequence of UTF-16 code units. -/
abbrev JStr := List Nat

/-- Embed a Lean string literal as a `JStr` (code-unit list). -/
def jstr (s : String) : JStr := s.data.map Char.toNat

/-- `Math.round` for rationals: JavaScript rounds half towards +infinity,
that is `⌊q + 1/2⌋`.  Written on the numerator/denominator level so that it
evaluates on concrete inputs; `jsRound_eq_floor` below gives the floor
form. -/
def jsRound (q : Rat) : Int := Int.fdiv (2 * q.num + q.den) (2 * q.den)

theorem jsRound_eq_floor (q : Rat) : jsRound q = ⌊q + (1 : ℚ) / 2⌋ := by
  have hd : (0 : ℤ) < (q.den : ℤ) := Int.ofNat_pos.mpr q.pos
  have h2d : (0 : ℤ) < 2 * (q.den : ℤ) := by omega
  have hediv : jsRound q = (2 * q.num + (q.den : ℤ)) / (2 * (q.den : ℤ)) := by
    unfold jsRound
    exact Int.fdiv_eq_ediv _ (le_of_lt h2d)
  have hdq : (0 : ℚ) < ((2 * (q.den : ℤ) : ℤ) : ℚ) := by exact_mod_cast h2d
  have hne : ((q.den : ℚ)) ≠ 0 := by
    have : (0 : ℚ) < (q.den : ℚ) := by exact_mod_cast hd
    exact ne_of_gt this
  have hq : q * ((q.den : ℤ) : ℚ) = ((q.num : ℤ) : ℚ) := by
    push_cast
    nth_rewrite 1 [← Rat.num_div_den q]
    exact div_mul_cancel₀ _ hne
  have hsum : q + (1 : ℚ) / 2 = ((2 * q.num + (q.den : ℤ) : ℤ) : ℚ) / ((2 * (q.den : ℤ) : ℤ) : ℚ) := by
    rw [eq_div_iff (ne_of_gt hdq)]
    push_cast
    push_cast at hq
    linear_combination 2 * hq
  symm
  rw [Int.floor_eq_iff]
  constructor
  · rw [hsum, le_div_iff₀ hdq, hediv]
    have h1 : ((2 * q.num + (q.den : ℤ)) / (2 * (q.den : ℤ))) * (2 * (q.den : ℤ)) ≤
        2 * q.num + (q.den : ℤ) := Int.ediv_mul_le _ (ne_of_gt h2d)
    exact_mod_cast h1
  · rw [hsum, div_lt_iff₀ hdq, hediv]
    have h2 : 2 * q.num + (q.den : ℤ) <
        ((2 * q.num + (q.den : ℤ)) / (2 * (q.den : ℤ)) + 1) * (2 * (q.den : ℤ)) :=
      Int.lt_ediv_add_one_mul_self _ h2d
    exact_mod_cast h2

example : jsRound 300 = 300 := by decide
example : jsRound (7 / 2) = 4 := by norm_num [jsRound_eq_floor]

/-- JavaScript whitespace (the common code points used by `trim` and `\s`). -/
def isWsCode (n : Nat) : Bool := n = 32 || n = 9 || n = 10 || n = 11 || n = 12 || n = 13 || n = 160

/-- `String.prototype.trim`: drop leading and trailing whitespace. -/
def jsTrim (s : JStr) : JStr :=
  ((s.dropWhile isWsCode).reverse.dropWhile isWsCode).reverse

/-- Lower-case one ASCII code unit (`String.prototype.toLowerCase`, ASCII fragment). -/
def lowerCode (n : Nat) : Nat := if 65 ≤ n ∧ n ≤ 90 then n + 32 else n

/-- `String.prototype.toLowerCase` on the ASCII fragment used by the engine. -/
def jsToLower (s : JStr) : JStr := s.map lowerCode

/-- Value of an ASCII hex digit, if the code unit is one. -/
def hexVal (n : Nat) : Option Nat :=
  if 48 ≤ n ∧ n ≤ 57 then some (n - 48)
  else if 65 ≤ n ∧ n ≤ 70 then some (n - 55)
  else if 97 ≤ n ∧ n ≤ 102 then some (n - 87)
  else none

/-- `decodeURIComponent`, restricted to the ASCII fragment exercised by the
engine: a `%` must be followed by two hex digits whose value is below `0x80`
(a one-byte UTF-8 sequence); other code units pass through unchanged.
Multi-byte escape sequences, like every malformed escape, are modelled as a
decoding failure (`none`), which the caller's `try/catch` turns into keeping
the input unchanged. -/
def percentDecode : JStr → Option JStr
  | [] => some []
  | c :: rest =>
    if c = 37 then
      match rest with
      | h1 :: h2 :: rest2 =>
        match hexVal h1, hexVal h2 with
        | some a, some b =>
          let v := a * 16 + b
          if v < 128 then (percentDecode rest2).map (v :: ·) else none
        | _, _ => none
      | _ => none
    else (percentDecode rest).map (c :: ·)

/-- The seven code units of `file://`, lower case. -/
def fileSchemeCodes : JStr := jstr "file://"

/-- `.replace(/^file:\/\//i, "")`: drop a leading `file://`, case-insensitively. -/
def dropFileScheme (s : JStr) : JStr :=
  if jsToLower (s.take 7) = fileSchemeCodes then s.drop 7 else s

/-- `x.replace(/\\/g, "/")`: turn every backslash into a forward slash. -/
def slashify (s : JStr) : JStr := s.map (fun n => if n = 92 then 47 else n)

/-- `try { x = decodeURIComponent(x) } catch {}`: keep the input on failure. -/
def tryDecode (s : JStr) : JStr :=
  match percentDecode s with
  | some d => d
  | none => s

namespace JS

/-- `norm` (generate.js): trim, strip a `file://` scheme, best-effort
URL-decode (failures keep the string), forward slashes, lower case.
The identical helper in dj-lib.js is called `normKey`/`norm`.  (It lives in
the `JS` namespace only because `norm` clashes with Mathlib notation.) -/
def norm (s : JStr) : JStr :=
  if s = [] then []
  else jsToLower (slashify (tryDecode (dropFileScheme (jsTrim s))))

end JS

/-- Is the code unit an ASCII letter or digit (the class `[a-z0-9]` under `/i`)? -/
def isExtCode (n : Nat) : Bool :=
  (48 ≤ n && n ≤ 57) || (65 ≤ n && n ≤ 90) || (97 ≤ n && n ≤ 122)

/-- `stripExt`: `p.replace(/\.[a-z0-9]+$/i, "")` — remove one trailing
`.ext` segment (a dot followed by one or more alphanumerics at the end). -/
def stripExt (p : JStr) : JStr :=
  let r := p.reverse
  let ext := r.takeWhile isExtCode
  let rest := r.drop ext.length
  match rest with
  | 46 :: tail => if ext = [] then p else tail.reverse
  | _ => p

/-- `matchKey`: the normalized identity key used by the engine
(`stripExt(norm(s))`). -/
def matchKey (s : JStr) : JStr := stripExt (JS.norm s)

-- A few sanity evaluations of the embedding.
example : JS.norm (jstr "FILE://A%20B\\c.MP3") = jstr "a b/c.mp3" := by decide
example : matchKey (jstr "A%20B\\c.MP3") = jstr "a b/c" := by decide
example : stripExt (jstr "a.tar.gz") = jstr "a.tar" := by decide

/-! ## Basic facts about the normalization helpers -/

theorem lowerCode_idem (n : Nat) : lowerCode (lowerCode n) = lowerCode n := by
  unfold lowerCode
  split
  · split <;> omega
  · rfl

theorem jsToLower_idem (s : JStr) : jsToLower (jsToLower s) = jsToLower s := by
  induction s with
  | nil => rfl
  | cons c t ih =>
    simp only [jsToLower, List.map_cons] at *
    exact congrArg₂ List.cons (lowerCode_idem c) ih

theorem percentDecode_of_not_mem {s : JStr} (h : (37 : Nat) ∉ s) :
    percentDecode s = some s := by
  induction s with
  | nil => rfl
  | cons c t ih =>
    have hc : c ≠ 37 := fun hc => h (hc ▸ List.mem_cons_self c t)
    have ht : (37 : Nat) ∉ t := fun hm => h (List.mem_cons_of_mem c hm)
    unfold percentDecode
    rw [if_neg hc, ih ht]
    rfl

theorem slashify_of_not_mem {s : JStr} (h : (92 : Nat) ∉ s) : slashify s = s := by
  induction s with
  | nil => rfl
  | cons c t ih =>
    have hc : c ≠ 92 := fun hc => h (hc ▸ List.mem_cons_self c t)
    have ht : (92 : Nat) ∉ t := fun hm => h (List.mem_cons_of_mem c hm)
    simp only [slashify, List.map_cons, if_neg hc]
    exact congrArg (c :: ·) (ih ht)

theorem mem_jsToLower {s : JStr} {m : Nat} (h : m ∈ jsToLower s) :
    ∃ n ∈ s, lowerCode n = m := by
  simp only [jsToLower, List.mem_map] at h
  exact h

/-- A backslash never survives `norm` (it is rewritten to a slash, and
lower-casing cannot produce one). -/
theorem not_backslash_mem_norm (x : JStr) : (92 : Nat) ∉ JS.norm x := by
  intro hmem
  unfold JS.norm at hmem
  split at hmem
  · simp at hmem
  · obtain ⟨n, hn, hlow⟩ := mem_jsToLower hmem
    simp only [slashify, List.mem_map] at hn
    obtain ⟨m, _, hm⟩ := hn
    unfold lowerCode at hlow
    split at hlow <;> split at hm <;> omega

/-- `norm` output is already lower case. -/
theorem jsToLower_norm (x : JStr) : jsToLower (JS.norm x) = JS.norm x := by
  unfold JS.norm
  split
  · rfl
  · exact jsToLower_idem _

/-! ## Duration parsers (generate.js `toSeconds`, `durationSecSafe`,
dj-lib.js `toSeconds`) -/

namespace Generate

/-- `toSeconds` (generate.js lines 201-215) on an absent (`null`) or finite
numeric value.  Numbers strictly above 6000 are read as milliseconds,
others as seconds; `Math.round` is applied either way.  (The string branch
parses `"mm:ss"` forms and the non-numeric fallback returns 165; neither is
exercised by the claims, which quantify over numeric values.) -/
def toSeconds : Option Rat → Int
  | none => 0
  | some v => if 6000 < v then jsRound (v / 1000) else jsRound v

end Generate

namespace DjLib

/-- `toSeconds` (dj-lib.js lines 331-344): identical numeric branch; the
non-numeric fallback is 0 instead of 165 (outside the modelled domain). -/
def toSeconds : Option Rat → Int
  | none => 0
  | some v => if 6000 < v then jsRound (v / 1000) else jsRound v

end DjLib

/-- The numeric branch of `durationSecSafe` (generate.js lines 499-522),
applied to the first non-null field of its chain. -/
def durationSecSafeNum : Option Rat → Int
  | none => 0
  | some v => if 6000 < v then jsRound (v / 1000) else jsRound v

/-! ## Camelot wheel -/

/-- `CAMELOT_ORDER` (generate.js lines 332-357). -/
def CAMELOT_ORDER : List JStr :=
  [jstr "1A", jstr "2A", jstr "3A", jstr "4A", jstr "5A", jstr "6A",
   jstr "7A", jstr "8A", jstr "9A", jstr "10A", jstr "11A", jstr "12A",
   jstr "1B", jstr "2B", jstr "3B", jstr "4B", jstr "5B", jstr "6B",
   jstr "7B", jstr "8B", jstr "9B", jstr "10B", jstr "11B", jstr "12B"]

/-- `Array.prototype.indexOf`: first index of `k`, or `-1`. -/
def jsIndexOf (l : List JStr) (k : JStr) : Int :=
  match l.findIdx? (· == k) with
  | some i => (i : Int)
  | none => -1

/-- `camelotDistance` (generate.js lines 401-408): 99 on falsy or unknown
keys, otherwise the cyclic distance on the 24-position wheel. -/
def camelotDistance (k1 k2 : JStr) : Int :=
  if k1 = [] ∨ k2 = [] then 99
  else
    let i := jsIndexOf CAMELOT_ORDER k1
    let j := jsIndexOf CAMELOT_ORDER k2
    if i < 0 ∨ j < 0 then 99
    else
      let d := |i - j|
      min d (24 - d)

example : camelotDistance (jstr "8A") (jstr "9A") = 1 := by decide
example : camelotDistance (jstr "1A") (jstr "12A") = 11 := by decide
example : camelotDistance (jstr "1A") (jstr "7B") = 6 := by decide

/-! ## Claim C9 — identity-key normalization -/

theorem tryDecode_of_not_mem {s : JStr} (h : (37 : Nat) ∉ s) : tryDecode s = s := by
  unfold tryDecode
  rw [percentDecode_of_not_mem h]

theorem jsToLower_take (s : JStr) (n : Nat) :
    jsToLower (s.take n) = (jsToLower s).take n := by
  simp [jsToLower, List.map_take]

/-- C9 (counterexample).  Identity-key normalization is NOT idempotent: the
URL-decoding step of `norm` can expose fresh whitespace to the second
trim (`"%20"`), and `stripExt` removes only one of several trailing
extension-like segments, so `matchKey` applied twice keeps shrinking
(`"a.b.c"`). -/
theorem c9_normalization_counterexample :
    JS.norm (JS.norm (jstr "%20")) ≠ JS.norm (jstr "%20") ∧
    matchKey (matchKey (jstr "a.b.c")) ≠ matchKey (jstr "a.b.c") := by decide

/-- C9 (amended).  `norm` is idempotent on every string whose normalized
form contains no percent sign, is free of surrounding whitespace and does
not itself start with `file://`; and case, URL-encoding, path-separator and
extension variants of one path still produce equal match keys. -/
theorem c9_normalization_amended (x : JStr)
    (h1 : (37 : Nat) ∉ JS.norm x)
    (h2 : jsTrim (JS.norm x) = JS.norm x)
    (h3 : (JS.norm x).take 7 ≠ fileSchemeCodes) :
    JS.norm (JS.norm x) = JS.norm x ∧
    matchKey (jstr "FILE://C:\\Music\\La%20Cumparsita.MP3") =
      matchKey (jstr "c:/music/la cumparsita.flac") := by
  refine ⟨?_, by decide⟩
  by_cases hnil : JS.norm x = []
  · rw [hnil]; decide
  · have hscheme : jsToLower ((JS.norm x).take 7) ≠ fileSchemeCodes := by
      rw [jsToLower_take, jsToLower_norm]
      exact h3
    conv_lhs => rw [JS.norm, if_neg hnil, h2]
    unfold dropFileScheme
    rw [if_neg hscheme, tryDecode_of_not_mem h1,
      slashify_of_not_mem (not_backslash_mem_norm x), jsToLower_norm]

/-- Witness for `c9_normalization_amended` at the concrete path `ABC.mp3`. -/
theorem c9_normalization_witness :
    ((37 : Nat) ∉ JS.norm (jstr "ABC.mp3")) ∧
    JS.norm (JS.norm (jstr "ABC.mp3")) = JS.norm (jstr "ABC.mp3") :=
  ⟨by decide,
   (c9_normalization_amended (jstr "ABC.mp3") (by decide) (by decide) (by decide)).1⟩

/-! ## Claim C10 — the 6000-threshold of the duration parsers -/

/-- C10.  Every duration parser used for budget arithmetic (generate.js
`toSeconds` and `durationSecSafe`, dj-lib.js `toSeconds`) reads a finite
numeric value strictly above 6000 as milliseconds (`round(v/1000)`) and any
other finite numeric value as whole seconds (`round(v)`); consequently a
genuine seconds value above 6000 comes back strictly smaller than its
rounded self — it is silently reduced by a factor of a thousand. -/
theorem c10_duration_parsers (v : Rat) :
    (6000 < v →
      Generate.toSeconds (some v) = jsRound (v / 1000) ∧
      durationSecSafeNum (some v) = jsRound (v / 1000) ∧
      DjLib.toSeconds (some v) = jsRound (v / 1000) ∧
      Generate.toSeconds (some v) < jsRound v) ∧
    (v ≤ 6000 →
      Generate.toSeconds (some v) = jsRound v ∧
      durationSecSafeNum (some v) = jsRound v ∧
      DjLib.toSeconds (some v) = jsRound v) := by
  constructor
  · intro h
    have hlt : jsRound (v / 1000) < jsRound v := by
      rw [jsRound_eq_floor, jsRound_eq_floor]
      have h1 : (v / 1000 + 1 / 2) + 1 ≤ v + 1 / 2 := by linarith
      have h2 : ⌊v / 1000 + 1 / 2⌋ + 1 ≤ ⌊v + 1 / 2⌋ := by
        rw [← Int.floor_add_one]
        exact Int.floor_mono h1
      omega
    refine ⟨?_, ?_, ?_, ?_⟩ <;>
      simp [Generate.toSeconds, durationSecSafeNum, DjLib.toSeconds, if_pos h, hlt]
  · intro h
    have h' : ¬(6000 < v) := not_lt.mpr h
    refine ⟨?_, ?_, ?_⟩ <;>
      simp [Generate.toSeconds, durationSecSafeNum, DjLib.toSeconds, if_neg h']

/-- Witness for `c10_duration_parsers` at 7000 (milliseconds branch) and
100 (seconds branch). -/
theorem c10_duration_parsers_witness :
    ((6000 : Rat) < 7000 ∧ Generate.toSeconds (some 7000) = jsRound (7000 / 1000)) ∧
    ((100 : Rat) ≤ 6000 ∧ Generate.toSeconds (some 100) = jsRound 100) :=
  ⟨⟨by norm_num, ((c10_duration_parsers 7000).1 (by norm_num)).1⟩,
   ⟨by norm_num, ((c10_duration_parsers 100).2 (by norm_num)).1⟩⟩

/-! ## Claim C8 — Camelot distance -/

/-- C8.  For Camelot keys on the 24-position wheel (`CAMELOT_ORDER`),
`camelotDistance` is zero on the diagonal, symmetric, and at most 12. -/
theorem c8_camelot_distance (a b k : JStr)
    (ha : a ∈ CAMELOT_ORDER) (hb : b ∈ CAMELOT_ORDER) (hk : k ∈ CAMELOT_ORDER) :
    camelotDistance k k = 0 ∧
    camelotDistance a b = camelotDistance b a ∧
    camelotDistance a b ≤ 12 := by
  have H : ∀ x ∈ CAMELOT_ORDER, ∀ y ∈ CAMELOT_ORDER,
      camelotDistance x y = camelotDistance y x ∧ camelotDistance x y ≤ 12 := by decide
  have H0 : ∀ x ∈ CAMELOT_ORDER, camelotDistance x x = 0 := by decide
  exact ⟨H0 k hk, (H a ha b hb).1, (H a ha b hb).2⟩

/-- Witness for `c8_camelot_distance` at the keys `8A` and `9A`. -/
theorem c8_camelot_distance_witness :
    camelotDistance (jstr "8A") (jstr "8A") = 0 ∧
    camelotDistance (jstr "8A") (jstr "9A") = camelotDistance (jstr "9A") (jstr "8A") ∧
    camelotDistance (jstr "8A") (jstr "9A") ≤ 12 :=
  c8_camelot_distance (jstr "8A") (jstr "9A") (jstr "8A")
    (by decide) (by decide) (by decide)

/-! ## Orchestra-name normalization (`normalizeOrchestra`, generate.js 762-775) -/

/-- Case-insensitive literal-token match: does `s` start with `pat`
(where `pat` is given lower case)?  Returns the remainder when it does. -/
def stripCI (pat s : JStr) : Option JStr :=
  if jsToLower (s.take pat.length) = pat then some (s.drop pat.length) else none

/-- `\s+`: require at least one whitespace code unit and consume the run.
(Every use below is followed by a non-whitespace literal or by `.*`, so
consuming the maximal run is equivalent to the regex backtracking.) -/
def skipWs1 (s : JStr) : Option JStr :=
  let r := s.dropWhile isWsCode
  if r.length < s.length then some r else none

/-- Does `/\s+O\.T\.\s+con\s+.*$/i` match at the start of this suffix?
(The model reads `.` as any code unit: orchestra names carry no line
terminators.) -/
def otConMatch (s : JStr) : Bool :=
  match skipWs1 s with
  | none => false
  | some r1 =>
    match stripCI (jstr "o.t.") r1 with
    | none => false
    | some r2 =>
      match skipWs1 r2 with
      | none => false
      | some r3 =>
        match stripCI (jstr "con") r3 with
        | none => false
        | some r4 => (skipWs1 r4).isSome

/-- Does `/\s+y\s+su\s+orquesta\s*.*$/i` match at the start of this suffix? -/
def ySuOrquestaMatch (s : JStr) : Bool :=
  match skipWs1 s with
  | none => false
  | some r1 =>
    match stripCI (jstr "y") r1 with
    | none => false
    | some r2 =>
      match skipWs1 r2 with
      | none => false
      | some r3 =>
        match stripCI (jstr "su") r3 with
        | none => false
        | some r4 =>
          match skipWs1 r4 with
          | none => false
          | some r5 => (stripCI (jstr "orquesta") r5).isSome

/-- Does `/\s+Y\s+Su\s*.*$/i` match at the start of this suffix? -/
def ySuMatch (s : JStr) : Bool :=
  match skipWs1 s with
  | none => false
  | some r1 =>
    match stripCI (jstr "y") r1 with
    | none => false
    | some r2 =>
      match skipWs1 r2 with
      | none => false
      | some r3 => (stripCI (jstr "su") r3).isSome

/-- `String.prototype.replace` with an end-anchored pattern: truncate at the
first (leftmost) position where the pattern matches. -/
def stripFromFirst (test : JStr → Bool) : JStr → JStr
  | [] => []
  | c :: rest => if test (c :: rest) then [] else c :: stripFromFirst test rest

/-- `normalizeOrchestra` (generate.js 762-775): trim, drop the boilerplate
suffixes `O.T. con …`, `y su orquesta …`, `Y Su …` (case-insensitively),
trim again, and fall back to the plain trimmed name if that left nothing. -/
def normalizeOrchestra (orch : JStr) : JStr :=
  if orch = [] then []
  else
    let t0 := jsTrim orch
    let n1 := stripFromFirst otConMatch t0
    let n2 := stripFromFirst ySuOrquestaMatch n1
    let n3 := stripFromFirst ySuMatch n2
    let n := jsTrim n3
    if n = [] then t0 else n

example : normalizeOrchestra (jstr "Di Sarli Y Su Orquesta Tipica") = jstr "Di Sarli" := by decide
example : normalizeOrchestra (jstr "D'Arienzo O.T. con Echague") = jstr "D'Arienzo" := by decide
example : normalizeOrchestra (jstr "Canaro") = jstr "Canaro" := by decide
example : normalizeOrchestra (jstr "  y su orquesta ") = jstr "y su orquesta" := by decide

/-! ## Slim candidate rows and the `planOneTanda` candidate filter -/

/-- A slim candidate row as sent to the oracle (`{id, title, artist,
seconds, bpm/BPM, energy, camelotKey}`). -/
structure ShortRow where
  id : JStr
  title : JStr
  artist : JStr
  seconds : Option Int
  bpm : Option Rat
  energy : Option Rat
  camelotKey : Option JStr
deriving DecidableEq, Repr

/-- The candidate-filtering stage of `planOneTanda` (generate.js 750-852):
with a real orchestra requested, keep candidates whose normalized artist
matches the normalized orchestra; if that leaves fewer than
`Math.max(4, size || 4)` rows, replace the pool by the broader style pool
(`allStyleCandidates || candidates`); if the result is empty, fall back to
the original candidates. -/
def planCandFilter (cands : List ShortRow) (allStyle : Option (List ShortRow))
    (orchestra : Option JStr) (size : Nat) : List ShortRow :=
  match orchestra with
  | none => cands
  | some o =>
    if o = [] ∨ o = jstr "any orchestra" then cands
    else
      let target := normalizeOrchestra o
      let filtered := cands.filter (fun r => normalizeOrchestra r.artist = target)
      let broader := allStyle.getD cands
      let f2 := if filtered.length < max 4 (if size = 0 then 4 else size) then broader
                else filtered
      if f2.length = 0 then cands else f2

/-- The candidate list actually placed in the oracle prompt (`candSlim`):
the filtered pool, capped at `CAND_MAX = 80`. -/
def planOneTandaCandidates (cands : List ShortRow) (allStyle : Option (List ShortRow))
    (orchestra : Option JStr) (size : Nat) : List ShortRow :=
  (planCandFilter cands allStyle orchestra size).take 80

/-- C7.  If restricting the candidate pool to the requested orchestra would
leave fewer raw candidates than the group size, `planOneTanda` widens that
oracle call to the (non-empty) full style pool. -/
theorem c7_broadening (cands allStyle : List ShortRow) (o : JStr) (size : Nat)
    (h0 : o ≠ []) (h1 : o ≠ jstr "any orchestra")
    (h2 : (cands.filter
      (fun r => normalizeOrchestra r.artist = normalizeOrchestra o)).length < size)
    (h3 : allStyle ≠ []) :
    planCandFilter cands (some allStyle) (some o) size = allStyle := by
  have hcond : ¬(o = [] ∨ o = jstr "any orchestra") := by push_neg; exact ⟨h0, h1⟩
  have hsz : ¬size = 0 := by omega
  show (if o = [] ∨ o = jstr "any orchestra" then cands else _) = allStyle
  rw [if_neg hcond]
  simp only [Option.getD, if_neg hsz]
  rw [if_pos (lt_of_lt_of_le h2 (le_max_right 4 size))]
  rw [if_neg (fun h => h3 (List.length_eq_zero.mp h))]

/-- Witness for `c7_broadening`: one same-orchestra candidate, group size 2. -/
theorem c7_broadening_witness :
    (jstr "Canaro" ≠ ([] : JStr)) ∧
    planCandFilter
      [{ id := jstr "x1", title := jstr "T1", artist := jstr "Canaro",
         seconds := none, bpm := none, energy := none, camelotKey := none }]
      (some [{ id := jstr "x1", title := jstr "T1", artist := jstr "Canaro",
               seconds := none, bpm := none, energy := none, camelotKey := none },
             { id := jstr "x2", title := jstr "T2", artist := jstr "Donato",
               seconds := none, bpm := none, energy := none, camelotKey := none }])
      (some (jstr "Canaro")) 2 =
      [{ id := jstr "x1", title := jstr "T1", artist := jstr "Canaro",
         seconds := none, bpm := none, energy := none, camelotKey := none },
       { id := jstr "x2", title := jstr "T2", artist := jstr "Donato",
         seconds := none, bpm := none, energy := none, camelotKey := none }] :=
  ⟨by decide,
   c7_broadening _ _ _ 2 (by decide) (by decide) (by decide) (by decide)⟩

/-! ## The track model

A `Track` is a working-set record after the catalog resolver has attached
overrides (`mergeSlotsAndTagsIntoTrack`).  Each field models the value of
the corresponding duck-typed access chain of the source; the model assumes
every library track carries an artist tag, so the chains
`artist ?? tags.artist ?? metadata.artist` with default `"Unknown"` and
with default `""` coincide. -/

structure Track where
  /-- `getId(t)`: `id ?? file.id ?? absolute path ?? path ?? uri`. -/
  id : JStr
  /-- `title ?? tags.title ?? metadata.title ?? "Unknown"`. -/
  title : JStr
  /-- `(artist ?? tags.artist ?? metadata.artist ?? "Unknown").trim()`. -/
  artist : JStr
  /-- `tags.genre`, in array form (a plain string becomes `[g]`). -/
  genres : List JStr
  /-- `t.styles`, in array form. -/
  styles : List JStr
  /-- `t.audio?.duration`, when a finite number. -/
  audioDuration : Option Rat
  /-- `t.format?.durationSec`. -/
  formatDurationSec : Option Rat
  /-- `t.duration`. -/
  duration : Option Rat
  /-- `t.durationMs`. -/
  durationMs : Option Rat
  /-- `t.length`. -/
  length : Option Rat
  /-- `BPM ?? bpm ?? audio.bpm ?? tags.BPM ?? tags.tempoBPM`. -/
  bpm : Option Rat
  /-- `Energy ?? energy ?? audio.energy ?? tags.Energy`. -/
  energy : Option Rat
  /-- `camelotKey ?? Camelot ?? camelot ?? tags.camelotKey`. -/
  camelotKey : Option JStr
  /-- `Key ?? key ?? tags.Key`. -/
  key : Option JStr
  /-- first non-null of `tags.recordingYear, tags.originalYear,
  metadata.recordingYear, metadata.originalYear, tags.year, year,
  metadata.year`. -/
  year : Option Rat
  /-- `tags.album ?? album ?? ""`. -/
  album : JStr
deriving DecidableEq, Repr

/-- `getId` (generate.js 233-235). -/
def getId (t : Track) : JStr := t.id

/-- `a || b || … || 0` over numbers: the first non-zero value, else 0. -/
def firstNonZero : List Int → Int
  | [] => 0
  | x :: rest => if x ≠ 0 then x else firstNonZero rest

/-- `durationSec` (generate.js 222-231): first truthy of `toSeconds` over
`audio.duration`, `format.durationSec`, `duration`, `durationMs`, `length`. -/
def durationSec (t : Track) : Int :=
  firstNonZero
    [Generate.toSeconds t.audioDuration,
     Generate.toSeconds t.formatDurationSec,
     Generate.toSeconds t.duration,
     Generate.toSeconds t.durationMs,
     Generate.toSeconds t.length]

/-- `bpmOf` (generate.js 188-195): first finite candidate, rounded to one
decimal place. -/
def bpmOf (t : Track) : Option Rat :=
  t.bpm.map (fun n => (jsRound (n * 10) : Rat) / 10)

/-- `energyOf` (generate.js 197-199). -/
def energyOf (t : Track) : Option Rat := t.energy

/-- `KEY_TO_CAMELOT` (generate.js 358-391). -/
def KEY_TO_CAMELOT : List (JStr × JStr) :=
  [(jstr "Am", jstr "8A"), (jstr "Em", jstr "9A"), (jstr "Bm", jstr "10A"),
   (jstr "F#m", jstr "11A"), (jstr "C#m", jstr "12A"), (jstr "G#m", jstr "1A"),
   (jstr "D#m", jstr "2A"), (jstr "A#m", jstr "3A"), (jstr "Dm", jstr "7A"),
   (jstr "Gm", jstr "6A"), (jstr "Cm", jstr "5A"), (jstr "Fm", jstr "4A"),
   (jstr "Bbm", jstr "3A"), (jstr "Ebm", jstr "2A"), (jstr "Abm", jstr "1A"),
   (jstr "C", jstr "8B"), (jstr "G", jstr "9B"), (jstr "D", jstr "10B"),
   (jstr "A", jstr "11B"), (jstr "E", jstr "12B"), (jstr "B", jstr "1B"),
   (jstr "F#", jstr "2B"), (jstr "C#", jstr "3B"), (jstr "F", jstr "7B"),
   (jstr "Bb", jstr "6B"), (jstr "Eb", jstr "5B"), (jstr "Ab", jstr "4B"),
   (jstr "Db", jstr "3B"), (jstr "Gb", jstr "2B"), (jstr "Cb", jstr "1B")]

/-- Object-property lookup on an association list. -/
def assocLookup (m : List (JStr × JStr)) (k : JStr) : Option JStr :=
  (m.find? (fun p => p.1 == k)).map (·.2)

/-- `keyToCamelot` (generate.js 393-399): a truthy `camelotKey` that sits on
the wheel wins; otherwise a truthy `Key` is translated through
`KEY_TO_CAMELOT`; otherwise `null`. -/
def keyToCamelot (t : Track) : Option JStr :=
  let fallback :=
    match t.key with
    | some k => if k = [] then none else assocLookup KEY_TO_CAMELOT k
    | none => none
  match t.camelotKey with
  | some c => if c ≠ [] ∧ c ∈ CAMELOT_ORDER then some c else fallback
  | none => fallback

/-- The slim row built from a working-set track for the oracle prompt
(generate.js 3137-3145 and 551-559). -/
def slimRow (t : Track) : ShortRow :=
  { id := getId t
    title := t.title
    artist := t.artist
    seconds := if durationSec t ≠ 0 then some (durationSec t) else none
    bpm := t.bpm
    energy := t.energy
    camelotKey := keyToCamelot t }

/-! ## Used-identity bookkeeping and id resolution -/

/-- `isUsed` (generate.js 2882): membership of the normalized key. -/
def isUsed (used : List JStr) (id : JStr) : Bool := matchKey id ∈ used

/-- `markUsed` (generate.js 2881): add the normalized key (`Set.add`). -/
def markUsed (used : List JStr) (id : JStr) : List JStr :=
  if matchKey id ∈ used then used else matchKey id :: used

/-- Lookup in a JavaScript `Map` built by successive `set` calls over the
working set: the last entry with the key wins. -/
def jsMapGet (ws : List Track) (f : Track → JStr) (k : JStr) : Option Track :=
  ws.reverse.find? (fun t => f t == k)

/-- `resolveByAnyId` (generate.js 3042-3044): raw-id map first, then the
normalized-key map. -/
def resolveByAnyId (ws : List Track) (id : JStr) : Option Track :=
  match jsMapGet ws getId id with
  | some t => some t
  | none => jsMapGet ws (fun t => matchKey (getId t)) (matchKey id)

theorem jsMapGet_mem {ws : List Track} {f : Track → JStr} {k : JStr} {t : Track}
    (h : jsMapGet ws f k = some t) : t ∈ ws ∧ f t = k := by
  unfold jsMapGet at h
  have hm := List.mem_of_find?_eq_some h
  have hp := List.find?_some h
  refine ⟨List.mem_reverse.mp hm, ?_⟩
  simpa using hp

/-- A resolved track carries the normalized key that was asked for. -/
theorem resolveByAnyId_key {ws : List Track} {id : JStr} {t : Track}
    (h : resolveByAnyId ws id = some t) :
    t ∈ ws ∧ matchKey (getId t) = matchKey id := by
  unfold resolveByAnyId at h
  split at h
  · next heq =>
    obtain ⟨hmem, hid⟩ := jsMapGet_mem heq
    cases h
    exact ⟨hmem, by rw [hid]⟩
  · obtain ⟨hmem, hid⟩ := jsMapGet_mem h
    exact ⟨hmem, hid⟩

/-! ## Choosing tracks from an oracle response

`chooseTracksOrch` models generate.js 3171-3180 (the orchestra path): for
each returned id, skip it when its normalized key is already used, resolve
it against the whole working set, keep it only when the resolved artist is
the target orchestra, and mark it used at once.  `chooseTracksAny` models
the style-only fallback (3272-3279), identical but without the artist
check.  Both return the accepted tracks and the updated used set. -/

def chooseTracksOrch (ws : List Track) (target : JStr) :
    List JStr → List JStr → List Track × List JStr
  | used, [] => ([], used)
  | used, id :: rest =>
    if isUsed used id then chooseTracksOrch ws target used rest
    else
      match resolveByAnyId ws id with
      | some tr =>
        if tr.artist = target then
          let used' := markUsed used (getId tr)
          let out := chooseTracksOrch ws target used' rest
          (tr :: out.1, out.2)
        else chooseTracksOrch ws target used rest
      | none => chooseTracksOrch ws target used rest

def chooseTracksAny (ws : List Track) :
    List JStr → List JStr → List Track × List JStr
  | used, [] => ([], used)
  | used, id :: rest =>
    if isUsed used id then chooseTracksAny ws used rest
    else
      match resolveByAnyId ws id with
      | some tr =>
        let used' := markUsed used (getId tr)
        let out := chooseTracksAny ws used' rest
        (tr :: out.1, out.2)
      | none => chooseTracksAny ws used rest

theorem markUsed_mem (used : List JStr) (id : JStr) : matchKey id ∈ markUsed used id := by
  unfold markUsed
  split
  · assumption
  · exact List.mem_cons_self _ _

theorem markUsed_incl {used : List JStr} {k : JStr} (id : JStr) (h : k ∈ used) :
    k ∈ markUsed used id := by
  unfold markUsed
  split
  · exact h
  · exact List.mem_cons_of_mem _ h

theorem isUsed_false {used : List JStr} {id : JStr} (h : ¬isUsed used id = true) :
    matchKey id ∉ used := by
  simpa [isUsed] using h

theorem chooseTracksOrch_keys (ws : List Track) (target : JStr) :
    ∀ (ids : List JStr) (used : List JStr),
    (∀ k ∈ used, k ∈ (chooseTracksOrch ws target used ids).2) ∧
    (∀ t ∈ (chooseTracksOrch ws target used ids).1,
        matchKey (getId t) ∉ used ∧
        matchKey (getId t) ∈ (chooseTracksOrch ws target used ids).2) ∧
    ((chooseTracksOrch ws target used ids).1.map (fun t => matchKey (getId t))).Nodup
  | [], used => by
    refine ⟨fun k hk => hk, ?_, ?_⟩ <;> simp [chooseTracksOrch]
  | id :: rest, used => by
    simp only [chooseTracksOrch]
    by_cases hu : isUsed used id = true
    · simp only [hu, if_true]
      exact chooseTracksOrch_keys ws target rest used
    · simp only [eq_false_of_ne_true hu, Bool.false_eq_true, if_false]
      cases hres : resolveByAnyId ws id with
      | none => exact chooseTracksOrch_keys ws target rest used
      | some tr =>
        dsimp only
        by_cases hart : tr.artist = target
        · rw [if_pos hart]
          obtain ⟨ihgrow, ihmem, ihnodup⟩ :=
            chooseTracksOrch_keys ws target rest (markUsed used (getId tr))
          have hkey : matchKey (getId tr) = matchKey id := (resolveByAnyId_key hres).2
          have hnotin : matchKey id ∉ used := isUsed_false hu
          refine ⟨?_, ?_, ?_⟩
          · intro k hk
            exact ihgrow k (markUsed_incl _ hk)
          · intro t ht
            rcases List.mem_cons.mp ht with rfl | ht'
            · exact ⟨by rw [hkey]; exact hnotin, ihgrow _ (markUsed_mem _ _)⟩
            · obtain ⟨hn, hm⟩ := ihmem t ht'
              exact ⟨fun hc => hn (markUsed_incl _ hc), hm⟩
          · rw [List.map_cons, List.nodup_cons]
            refine ⟨?_, ihnodup⟩
            intro hc
            rw [List.mem_map] at hc
            obtain ⟨t, ht, heq⟩ := hc
            obtain ⟨hn, _⟩ := ihmem t ht
            exact hn (heq ▸ markUsed_mem used (getId tr))
        · rw [if_neg hart]
          exact chooseTracksOrch_keys ws target rest used

theorem chooseTracksAny_keys (ws : List Track) :
    ∀ (ids : List JStr) (used : List JStr),
    (∀ k ∈ used, k ∈ (chooseTracksAny ws used ids).2) ∧
    (∀ t ∈ (chooseTracksAny ws used ids).1,
        matchKey (getId t) ∉ used ∧
        matchKey (getId t) ∈ (chooseTracksAny ws used ids).2) ∧
    ((chooseTracksAny ws used ids).1.map (fun t => matchKey (getId t))).Nodup
  | [], used => by
    refine ⟨fun k hk => hk, ?_, ?_⟩ <;> simp [chooseTracksAny]
  | id :: rest, used => by
    simp only [chooseTracksAny]
    by_cases hu : isUsed used id = true
    · simp only [hu, if_true]
      exact chooseTracksAny_keys ws rest used
    · simp only [eq_false_of_ne_true hu, Bool.false_eq_true, if_false]
      cases hres : resolveByAnyId ws id with
      | none => exact chooseTracksAny_keys ws rest used
      | some tr =>
        dsimp only
        obtain ⟨ihgrow, ihmem, ihnodup⟩ :=
          chooseTracksAny_keys ws rest (markUsed used (getId tr))
        have hkey : matchKey (getId tr) = matchKey id := (resolveByAnyId_key hres).2
        have hnotin : matchKey id ∉ used := isUsed_false hu
        refine ⟨?_, ?_, ?_⟩
        · intro k hk
          exact ihgrow k (markUsed_incl _ hk)
        · intro t ht
          rcases List.mem_cons.mp ht with rfl | ht'
          · exact ⟨by rw [hkey]; exact hnotin, ihgrow _ (markUsed_mem _ _)⟩
          · obtain ⟨hn, hm⟩ := ihmem t ht'
            exact ⟨fun hc => hn (markUsed_incl _ hc), hm⟩
        · rw [List.map_cons, List.nodup_cons]
          refine ⟨?_, ihnodup⟩
          intro hc
          rw [List.mem_map] at hc
          obtain ⟨t, ht, heq⟩ := hc
          obtain ⟨hn, _⟩ := ihmem t ht
          exact hn (heq ▸ markUsed_mem used (getId tr))

/-! ## Role rules (ndjson route, generate.js 2766-2849) -/

/-- Substring search: does `pat` occur contiguously inside `s`? -/
def hasSub (pat : JStr) : JStr → Bool
  | [] => pat = []
  | c :: rest => (c :: rest).take pat.length = pat || hasSub pat rest

/-- `ROLE_RULES` (2766-2771): `(minYear, maxYear, preferAlt)`. -/
def roleRules (r : JStr) : Option (Int × Int × Bool) :=
  if r = jstr "classic" then some (1930, 1945, false)
  else if r = jstr "rich" then some (1946, 1958, false)
  else if r = jstr "modern" then some (1990, 2100, false)
  else if r = jstr "alt" then some (1995, 2100, true)
  else none

/-- `clampYear` (2793-2796): clamp a finite number into `[1900, 2100]`. -/
def clampYear : Option Rat → Option Int
  | none => none
  | some v => some (max 1900 (min 2100 (jsRound v)))

/-- `readGenres` (2798-2801): the genre tags, lower-cased. -/
def readGenres (t : Track) : List JStr := t.genres.map jsToLower

/-- `looksRemasterish` (2803-2809): reissue/remaster markers in the album
or title. -/
def looksRemasterish (t : Track) : Bool :=
  let hay := jsToLower t.album ++ jstr " " ++ jsToLower t.title
  [jstr "remaster", jstr "remastered", jstr "reissue", jstr "anthology",
   jstr "collection", jstr "best of", jstr "archive", jstr "deluxe",
   jstr "box set"].any (fun k => hasSub k hay)

/-- `TRUST_YEAR_CUTOFF` (2791). -/
def TRUST_YEAR_CUTOFF : Int := 1990

/-- `effectiveYear` (2815-2839): the clamped tag year, except that a
modern-looking year on a remaster-looking core dance track is treated as
unknown. -/
def effectiveYear (t : Track) : Option Int :=
  match clampYear t.year with
  | none => none
  | some y =>
    let genres := readGenres t
    let isDanceCore := genres.any
      (fun g => g = jstr "tango" || g = jstr "vals" || g = jstr "milonga")
    if TRUST_YEAR_CUTOFF ≤ y ∧ isDanceCore ∧ looksRemasterish t then none
    else some y

/-- The alt-music lexicon test of `trackFitsRole` (2783-2785). -/
def altLexiconHit (t : Track) : Bool :=
  let hay := jsToLower (List.intercalate (jstr " ") (readGenres t ++ t.styles))
  [jstr "alt", jstr "alternative", jstr "nuevo", jstr "neo", jstr "electro",
   jstr "pop", jstr "rock", jstr "jazz", jstr "swing", jstr "blues",
   jstr "folk"].any (fun k => hasSub k hay)

/-- `trackFitsRole` (ndjson route, 2773-2787). -/
def trackFitsRole (t : Track) (role : Option JStr) : Bool :=
  match role with
  | none => true
  | some r =>
    match roleRules r with
    | none => true
    | some (minY, maxY, preferAlt) =>
      let inYear :=
        match effectiveYear t with
        | none => true
        | some y => minY ≤ y && y ≤ maxY
      if preferAlt then inYear && altLexiconHit t else inYear

/-! ## Slot planning state (ndjson route, generate.js 3074-3316) -/

/-- A normalized slot (`{style, role, size}` after the route's slot
normalization, 3050-3069). -/
structure SlotSpec where
  style : JStr
  role : Option JStr
  size : Nat
deriving DecidableEq, Repr

/-- The oracle outcomes one slot consumes: the orchestra-ranking call
(`suggestNextOrchestras`; `none` models a thrown call) and the track-id
lists produced by `planOneTandaWithRetry` on the orchestra path and on the
style-only fallback path.  These are the only nondeterministic inputs. -/
structure SlotOracle where
  rank : Option (List JStr)
  orchIds : List JStr
  orchNotes : Option JStr
  fbIds : List JStr
  fbNotes : Option JStr
deriving DecidableEq, Repr

/-- A chosen tanda member: a resolved library track or the placeholder
object `{placeholder: true, style, title: "replace this"}`. -/
inductive Chosen where
  | real (t : Track)
  | ph (style : JStr)
deriving DecidableEq, Repr

/-- `durationSec` of a tanda member (the placeholder has no duration
fields, so every branch of `durationSec` yields 0). -/
def chosenSec : Chosen → Int
  | .real t => durationSec t
  | .ph _ => 0

/-- The real/placeholder test used for `realTrackCount`
(`t.id && !t.placeholder && t.title !== "replace this"`, 3285). -/
def isRealForCount : Chosen → Bool
  | .real t => t.id ≠ [] && t.title ≠ jstr "replace this"
  | .ph _ => false

/-- The normalized key of a real member, none for placeholders. -/
def chosenKey : Chosen → Option JStr
  | .real t => some (matchKey (getId t))
  | .ph _ => none

/-- The placeholder-padding loop (3181-3183 and 3280-3282): append
placeholders until the list reaches the slot size. -/
def padPlaceholders (style : JStr) (size : Nat) (chosen : List Track) : List Chosen :=
  chosen.map Chosen.real ++ List.replicate (size - chosen.length) (Chosen.ph style)

/-- Tanda seconds on the orchestra path (3185-3186): the duration sum,
replaced by `180 * length` when not positive. -/
def tandaSecondsOrch (tracks : List Chosen) : Int :=
  let s := (tracks.map chosenSec).sum
  if s ≤ 0 then 180 * tracks.length else s

/-- Tanda seconds on the fallback path (3284): `sum || 180 * length`. -/
def tandaSecondsFb (tracks : List Chosen) : Int :=
  let s := (tracks.map chosenSec).sum
  if s = 0 then 180 * tracks.length else s

/-- An emitted tanda (3189-3195). -/
structure Tanda where
  style : JStr
  role : Option JStr
  tracks : List Chosen
  seconds : Int
  notes : Option JStr
deriving DecidableEq, Repr

/-- The request-scoped generation state: the used-key set, the remaining
budget in seconds, the recent-orchestra window and the previous Camelot
key. -/
structure GenState where
  used : List JStr
  remaining : Int
  recentOrchestras : List JStr
  prevKey : Option JStr
deriving DecidableEq, Repr

/-- The role-filtered unused pool for one slot (3088-3094). -/
def baseRolePool (ws : List Track) (style : JStr) (role : Option JStr)
    (used : List JStr) : List Track :=
  ws.filter (fun t =>
    (t.genres.map jsToLower).contains (jsToLower style) &&
    trackFitsRole t role && !(isUsed used (getId t)))

/-- Number of pool tracks by one orchestra (the `availability` map). -/
def countByArtist (pool : List Track) (a : JStr) : Nat :=
  (pool.filter (fun t => t.artist = a)).length

/-- The orchestras of a pool in first-occurrence order (JavaScript `Map`
insertion order). -/
def distinctArtists (pool : List Track) : List JStr :=
  pool.foldl (fun acc t => if t.artist ∈ acc then acc else acc ++ [t.artist]) []

/-- Picking the target orchestra (3114-3129): the first ranked suggestion
with availability at least the slot size, else the first pool orchestra
with that availability. -/
def pickTargetOrchestra (pool : List Track) (sugs : List JStr) (sizeTarget : Nat) :
    Option JStr :=
  match (sugs.map jsTrim).find? (fun o => sizeTarget ≤ countByArtist pool o) with
  | some o => some o
  | none => (distinctArtists pool).find? (fun a => sizeTarget ≤ countByArtist pool a)

/-- The key of the last member of an accepted tanda (3213-3215): only a
truthy `keyToCamelot` updates `prevKey`. -/
def lastTrackKey (tracks : List Chosen) : Option JStr :=
  match tracks.getLast? with
  | some (.real t) => keyToCamelot t
  | _ => none

/-! ## Stable comparator sort (`Array.prototype.sort` with a numeric cost) -/

def insertByCost {α : Type} (cost : α → Rat) (x : α) : List α → List α
  | [] => [x]
  | y :: rest =>
    if cost x < cost y then x :: y :: rest else y :: insertByCost cost x rest

/-- Stable ascending sort by a numeric cost (ties keep source order). -/
def sortByCost {α : Type} (cost : α → Rat) : List α → List α
  | [] => []
  | x :: rest => insertByCost cost x (sortByCost cost rest)

theorem mem_insertByCost {α : Type} (cost : α → Rat) (x y : α) (l : List α) :
    y ∈ insertByCost cost x l ↔ y = x ∨ y ∈ l := by
  induction l with
  | nil => simp [insertByCost]
  | cons z rest ih =>
    unfold insertByCost
    split
    · simp
    · simp only [List.mem_cons, ih]
      tauto

theorem mem_sortByCost {α : Type} (cost : α → Rat) (y : α) (l : List α) :
    y ∈ sortByCost cost l ↔ y ∈ l := by
  induction l with
  | nil => simp [sortByCost]
  | cons z rest ih =>
    unfold sortByCost
    rw [mem_insertByCost, ih]
    simp

/-! ## `shortlistCandidates` (generate.js 525-562) -/

/-- The style pool of `shortlistCandidates`: tracks of the wanted style
whose id is truthy, whose re-normalized key is unused, and whose duration
sits in `[60, 480]`. -/
def shortlistPool (style : JStr) (lib : List Track) (usedKeys : List JStr) : List Track :=
  let want := jsToLower (jsTrim style)
  let usedNorm := usedKeys.map matchKey
  (lib.filter (fun t => (t.genres.map jsToLower).contains want)).filter
    (fun t => decide (getId t ≠ []) && !(usedNorm.contains (matchKey (getId t))) &&
      decide (60 ≤ durationSec t) && decide (durationSec t ≤ 480))

/-- `shortlistCandidates`: the pool sorted by mid-energy preference
(`|(energy ?? 7) - 7|`), capped at `maxN`, as slim rows. -/
def shortlistCandidates (style : JStr) (lib : List Track) (usedKeys : List JStr)
    (maxN : Nat) : List ShortRow :=
  ((sortByCost (fun t => |((t.energy.getD 7) - 7 : Rat)|)
      (shortlistPool style lib usedKeys)).take maxN).map slimRow

/-! ## One slot of the ndjson planning loop -/

/-- The orchestra-aware attempt of one slot (generate.js 3096-3222,
wrapped in `try`): rank orchestras (a thrown call is `rank = none`), pick a
target with enough availability, ask the oracle, accept resolved unused
tracks of that orchestra, pad, and accept the tanda when its seconds fit
`remaining + 30`.  Returns the accepted tanda (if any) and the updated
state — note that `markUsed` mutations persist even when the tanda is
rejected, because the route shares one `usedIds` set. -/
def orchPhase (ws : List Track) (slot : SlotSpec) (orc : SlotOracle)
    (st : GenState) : Option Tanda × GenState :=
  match orc.rank with
  | none => (none, st)
  | some sugs =>
    let pool := baseRolePool ws slot.style slot.role st.used
    match pickTargetOrchestra pool sugs slot.size with
    | none => (none, st)
    | some target =>
      let candidatesAll := pool.filter (fun t => t.artist = target)
      if candidatesAll.length = 0 then (none, st)
      else
        let out := chooseTracksOrch ws target st.used orc.orchIds
        let tracks := padPlaceholders slot.style slot.size out.1
        let secs := tandaSecondsOrch tracks
        if 0 < tracks.length ∧ 0 < secs ∧ secs ≤ st.remaining + 30 then
          (some { style := slot.style, role := slot.role, tracks := tracks,
                  seconds := secs, notes := orc.orchNotes },
           { used := out.2, remaining := st.remaining - secs,
             recentOrchestras := st.recentOrchestras ++ [target],
             prevKey :=
               match lastTrackKey tracks with
               | some k => some k
               | none => st.prevKey })
        else (none, { st with used := out.2 })

/-- The style-only fallback of one slot (generate.js 3225-3315).  Before
the oracle call the route sorts `styleOnly` with a comparator that calls
`roleScoreBoost` — a function declared inside `registerAgentRoutes` and
therefore NOT in scope inside `registerAgentStreamRoutes` — so whenever the
shortlist has two or more rows the comparator runs and throws a
`ReferenceError`, which the route's outer `catch` turns into a terminal
`error` event (modelled by the `Bool` flag).  With at most one row the
comparator never runs and planning proceeds. -/
def fbPhase (ws : List Track) (slot : SlotSpec) (orc : SlotOracle)
    (st : GenState) : Option Tanda × GenState × Bool :=
  let styleOnly := shortlistCandidates slot.style ws st.used 100
  if 2 ≤ styleOnly.length then (none, st, true)
  else
    let out := chooseTracksAny ws st.used orc.fbIds
    let tracks := padPlaceholders slot.style slot.size out.1
    let secs := tandaSecondsFb tracks
    let realCount := (tracks.filter isRealForCount).length
    if 0 < tracks.length ∧ 0 < secs ∧ secs ≤ st.remaining + 30 ∧ 1 ≤ realCount then
      (some { style := slot.style, role := slot.role, tracks := tracks,
              seconds := secs, notes := orc.fbNotes },
       { used := out.2, remaining := st.remaining - secs,
         recentOrchestras := st.recentOrchestras,
         prevKey :=
           match lastTrackKey tracks with
           | some k => some k
           | none => st.prevKey },
       false)
    else (none, { st with used := out.2 }, false)

/-- Outcome of one slot. -/
structure SlotOut where
  tanda : Option Tanda
  st : GenState
  crashed : Bool
deriving Repr

/-- One iteration of the planning loop: the orchestra path, then — only if
no tanda was made — the style-only fallback. -/
def processSlot (ws : List Track) (slot : SlotSpec) (orc : SlotOracle)
    (st : GenState) : SlotOut :=
  match orchPhase ws slot orc st with
  | (some td, st1) => { tanda := some td, st := st1, crashed := false }
  | (none, st1) =>
    let f := fbPhase ws slot orc st1
    { tanda := f.1, st := f.2.1, crashed := f.2.2 }

/-- The planning loop (generate.js 3080-3316): stop when at most 60
seconds remain; a fallback-path crash aborts the run (outer `catch`). -/
def runSlots (ws : List Track) :
    List (SlotSpec × SlotOracle) → GenState →
    List (SlotSpec × Option Tanda) × GenState × Bool
  | [], st => ([], st, false)
  | (slot, orc) :: rest, st =>
    if st.remaining ≤ 60 then ([], st, false)
    else if (processSlot ws slot orc st).crashed then
      ([(slot, none)], (processSlot ws slot orc st).st, true)
    else
      ((slot, (processSlot ws slot orc st).tanda) ::
        (runSlots ws rest (processSlot ws slot orc st).st).1,
       (runSlots ws rest (processSlot ws slot orc st).st).2)

/-- Result of one generation run. -/
structure RunResult where
  outcomes : List (SlotSpec × Option Tanda)
  finalState : GenState
  aborted : Bool
deriving Repr

/-- The emitted tandas (`tandasResolved`), in order. -/
def RunResult.tandas (r : RunResult) : List Tanda := r.outcomes.filterMap (·.2)

/-- One full run of the ndjson generation route: fresh used set, budget
`minutes * 60`.  The working set is the catalog-resolved library slice;
each slot consumes its oracle outcomes. -/
def initialState (minutes : Int) : GenState :=
  { used := [], remaining := minutes * 60, recentOrchestras := [], prevKey := none }

def runGenerate (ws : List Track) (minutes : Int)
    (plan : List (SlotSpec × SlotOracle)) : RunResult :=
  { outcomes := (runSlots ws plan (initialState minutes)).1
    finalState := (runSlots ws plan (initialState minutes)).2.1
    aborted := (runSlots ws plan (initialState minutes)).2.2 }

/-! ## Cortina interleaving in the final plan (generate.js 3318-3370) -/

/-- A row of the cortina pool (the output of `listCortinas`, whose
random shuffle makes it an input here). -/
structure CortinaRow where
  id : JStr
  title : JStr
  artist : JStr
  seconds : Option Int
  approxMinutes : Option Int
deriving DecidableEq, Repr

/-- Seconds of one cortina block (3361-3363):
`Number.isFinite(c?.seconds) ? c.seconds : Math.round((c?.approxMinutes ?? 1) * 60)`. -/
def cortinaBlockSeconds : Option CortinaRow → Int
  | some c =>
    match c.seconds with
    | some s => s
    | none => 60 * c.approxMinutes.getD 1
  | none => 60

/-- The seconds of the cortina blocks interleaved into the final plan: one
after every tanda but the last, cycling through the pool (3344-3369).
No budget accounting is applied to them. -/
def cortinaSecondsList (cortinas : List CortinaRow) (nTandas : Nat) : List Int :=
  (List.range nTandas).filterMap (fun i =>
    if i + 1 < nTandas then
      some (cortinaBlockSeconds
        (if cortinas.length ≠ 0 then cortinas.get? (i % cortinas.length) else none))
    else none)

/-- Total duration of the emitted sequence: all tanda seconds plus all
interleaved cortina seconds. -/
def totalSequenceSeconds (tandas : List Tanda) (cortinas : List CortinaRow) : Int :=
  (tandas.map (·.seconds)).sum + (cortinaSecondsList cortinas tandas.length).sum

/-! ## Claim C1 — the time budget -/

/-- A minimal Tango track for the C1 scenario. -/
def c1Track (id : String) (sec : Rat) : Track :=
  { id := jstr id, title := jstr id, artist := jstr "O",
    genres := [jstr "Tango"], styles := [],
    audioDuration := some sec, formatDurationSec := none, duration := none,
    durationMs := none, length := none, bpm := none, energy := none,
    camelotKey := none, key := none, year := none, album := jstr "" }

def c1WS : List Track := [c1Track "t1" 300, c1Track "t2" 230, c1Track "t3" 95]

def c1Orc (id : String) : SlotOracle :=
  { rank := some [jstr "O"], orchIds := [jstr id], orchNotes := none,
    fbIds := [], fbNotes := none }

def c1Plan : List (SlotSpec × SlotOracle) :=
  [({ style := jstr "Tango", role := none, size := 1 }, c1Orc "t1"),
   ({ style := jstr "Tango", role := none, size := 1 }, c1Orc "t2"),
   ({ style := jstr "Tango", role := none, size := 1 }, c1Orc "t3")]

def c1Cortinas : List CortinaRow :=
  [{ id := jstr "c", title := jstr "Cortina", artist := jstr "X",
     seconds := some 60, approxMinutes := some 1 }]

/-- C1 (counterexample).  A completed 10-minute run: each accepted tanda
passed the `tandaSeconds <= remainingSeconds + 30` check, but the two
interleaved 60-second cortina blocks enter the final plan with no budget
accounting, so the emitted sequence lasts 745 seconds — more than
`minutes*60` plus one 60-second filler unit (660). -/
theorem c1_total_duration_counterexample :
    (runGenerate c1WS 10 c1Plan).aborted = false ∧
    ((runGenerate c1WS 10 c1Plan).tandas.map (·.seconds)).sum = 625 ∧
    cortinaSecondsList c1Cortinas (runGenerate c1WS 10 c1Plan).tandas.length = [60, 60] ∧
    ¬(totalSequenceSeconds (runGenerate c1WS 10 c1Plan).tandas c1Cortinas ≤ 10 * 60 + 60) := by
  decide

theorem orchPhase_budget (ws : List Track) (slot : SlotSpec) (orc : SlotOracle)
    (st : GenState) :
    ((orchPhase ws slot orc st).1 = none ∧
      (orchPhase ws slot orc st).2.remaining = st.remaining) ∨
    (∃ td, (orchPhase ws slot orc st).1 = some td ∧
      (orchPhase ws slot orc st).2.remaining = st.remaining - td.seconds ∧
      0 < td.seconds ∧ td.seconds ≤ st.remaining + 30) := by
  simp only [orchPhase]
  split
  · exact Or.inl ⟨rfl, rfl⟩
  · split
    · exact Or.inl ⟨rfl, rfl⟩
    · split
      · exact Or.inl ⟨rfl, rfl⟩
      · split
        · next h =>
          exact Or.inr ⟨_, rfl, rfl, h.2.1, h.2.2⟩
        · exact Or.inl ⟨rfl, rfl⟩

theorem fbPhase_budget (ws : List Track) (slot : SlotSpec) (orc : SlotOracle)
    (st : GenState) :
    ((fbPhase ws slot orc st).1 = none ∧
      (fbPhase ws slot orc st).2.1.remaining = st.remaining) ∨
    (∃ td, (fbPhase ws slot orc st).1 = some td ∧
      (fbPhase ws slot orc st).2.2 = false ∧
      (fbPhase ws slot orc st).2.1.remaining = st.remaining - td.seconds ∧
      0 < td.seconds ∧ td.seconds ≤ st.remaining + 30) := by
  simp only [fbPhase]
  split
  · exact Or.inl ⟨rfl, rfl⟩
  · split
    · next h =>
      exact Or.inr ⟨_, rfl, rfl, rfl, h.2.1, h.2.2.1⟩
    · exact Or.inl ⟨rfl, rfl⟩

theorem processSlot_budget (ws : List Track) (slot : SlotSpec) (orc : SlotOracle)
    (st : GenState) :
    ((processSlot ws slot orc st).tanda = none ∧
      (processSlot ws slot orc st).st.remaining = st.remaining) ∨
    (∃ td, (processSlot ws slot orc st).tanda = some td ∧
      (processSlot ws slot orc st).crashed = false ∧
      (processSlot ws slot orc st).st.remaining = st.remaining - td.seconds ∧
      0 < td.seconds ∧ td.seconds ≤ st.remaining + 30) := by
  have hb := orchPhase_budget ws slot orc st
  unfold processSlot
  rcases horch : orchPhase ws slot orc st with ⟨ot, st1⟩
  rw [horch] at hb
  cases ot with
  | some td =>
    rcases hb with ⟨h, _⟩ | ⟨td', h1, h2, h3, h4⟩
    · exact absurd h (by simp)
    · exact Or.inr ⟨td', h1, rfl, h2, h3, h4⟩
  | none =>
    rcases hb with ⟨_, hrem⟩ | ⟨td', h1, _⟩
    · have hfb := fbPhase_budget ws slot orc st1
      rcases hfb with ⟨h1, h2⟩ | ⟨td, h1, hcr, h2, h3, h4⟩
      · exact Or.inl ⟨h1, by rw [h2, hrem]⟩
      · refine Or.inr ⟨td, h1, hcr, ?_, h3, ?_⟩
        · rw [h2, hrem]
        · rw [← hrem]; exact h4
    · exact absurd h1 (by simp)

theorem runSlots_budget (ws : List Track) :
    ∀ (plan : List (SlotSpec × SlotOracle)) (st : GenState),
    ((((runSlots ws plan st).1.filterMap (·.2)).map (·.seconds)).sum
        = st.remaining - (runSlots ws plan st).2.1.remaining) ∧
    ((runSlots ws plan st).2.1.remaining = st.remaining ∨
      -30 ≤ (runSlots ws plan st).2.1.remaining)
  | [], st => by simp [runSlots]
  | (slot, orc) :: rest, st => by
    have hps := processSlot_budget ws slot orc st
    have ih := runSlots_budget ws rest (processSlot ws slot orc st).st
    unfold runSlots
    by_cases hb : st.remaining ≤ 60
    · rw [if_pos hb]
      simp
    · rw [if_neg hb]
      by_cases hcr : (processSlot ws slot orc st).crashed = true
      · rw [if_pos hcr]
        rcases hps with ⟨_, heq⟩ | ⟨td, _, hcrf, _⟩
        · simp [heq]
        · rw [hcrf] at hcr
          simp at hcr
      · rw [if_neg hcr]
        rcases ih with ⟨ihsum, ihfin⟩
        rcases hps with ⟨hno, heq⟩ | ⟨td, hsome, _, heq, hpos, hle⟩
        · rw [hno]
          constructor
          · simp only [List.filterMap_cons]
            rw [ihsum, heq]
          · rcases ihfin with he | hge
            · exact Or.inl (by rw [he, heq])
            · exact Or.inr hge
        · rw [hsome]
          constructor
          · simp only [List.filterMap_cons, List.map_cons, List.sum_cons]
            rw [ihsum, heq]
            ring
          · rcases ihfin with he | hge
            · refine Or.inr ?_
              rw [he, heq]
              omega
            · exact Or.inr hge

/-- C1 (amended).  The budget guard of the planning loop bounds only the
tanda seconds: for every run with a non-negative requested budget, the sum
of the emitted tanda durations is at most `minutes*60 + 30` (each accepted
tanda may overshoot the remaining budget by up to 30 seconds, and the loop
then stops).  The interleaved cortina blocks are appended to the final
plan with no budget accounting at all, so the claimed bound on the whole
sequence fails (see the counterexample). -/
theorem c1_tanda_budget_amended (ws : List Track) (minutes : Int)
    (plan : List (SlotSpec × SlotOracle)) (h : 0 ≤ minutes) :
    (((runGenerate ws minutes plan).tandas).map (·.seconds)).sum ≤ minutes * 60 + 30 := by
  have hr := runSlots_budget ws plan (initialState minutes)
  rcases hr with ⟨hsum, hfin⟩
  have hrem : (initialState minutes).remaining = minutes * 60 := rfl
  have hnn : 0 ≤ minutes * 60 := by
    have := mul_le_mul_of_nonneg_right h (show (0:Int) ≤ 60 by norm_num)
    simpa using this
  show (((runSlots ws plan (initialState minutes)).1.filterMap (·.2)).map (·.seconds)).sum
      ≤ minutes * 60 + 30
  rw [hsum, hrem]
  rcases hfin with he | hge
  · rw [he, hrem]
    omega
  · omega

/-- Witness for `c1_tanda_budget_amended` on the concrete C1 run. -/
theorem c1_tanda_budget_witness :
    (0 : Int) ≤ 10 ∧
    (((runGenerate c1WS 10 c1Plan).tandas).map (·.seconds)).sum ≤ 10 * 60 + 30 :=
  ⟨by norm_num, c1_tanda_budget_amended c1WS 10 c1Plan (by norm_num)⟩

/-! ## Claim C2 — group length versus slot size -/

/-- Is the member a resolved library track (not a placeholder)? -/
def isRealMember : Chosen → Bool
  | .real _ => true
  | .ph _ => false

theorem padPlaceholders_spec (style : JStr) (size : Nat) (ch : List Track) :
    (padPlaceholders style size ch).length = max size ch.length ∧
    (padPlaceholders style size ch).countP isRealMember = ch.length := by
  unfold padPlaceholders
  constructor
  · rw [List.length_append, List.length_map, List.length_replicate]
    omega
  · rw [List.countP_append]
    have h1 : (ch.map Chosen.real).countP isRealMember = ch.length := by
      rw [List.countP_map]
      simp [Function.comp, isRealMember]
    have h2 : (List.replicate (size - ch.length) (Chosen.ph style)).countP isRealMember = 0 := by
      rw [List.countP_eq_zero]
      intro a ha
      rw [List.eq_of_mem_replicate ha]
      simp [isRealMember]
    rw [h1, h2]
    omega

theorem orchPhase_tracks (ws : List Track) (slot : SlotSpec) (orc : SlotOracle)
    (st : GenState) (td : Tanda) (h : (orchPhase ws slot orc st).1 = some td) :
    ∃ ch, td.tracks = padPlaceholders slot.style slot.size ch := by
  simp only [orchPhase] at h
  split at h
  · exact absurd h (by simp)
  · split at h
    · exact absurd h (by simp)
    · split at h
      · exact absurd h (by simp)
      · split at h
        · cases h with
          | refl => exact ⟨_, rfl⟩
        · exact absurd h (by simp)

theorem fbPhase_tracks (ws : List Track) (slot : SlotSpec) (orc : SlotOracle)
    (st : GenState) (td : Tanda) (h : (fbPhase ws slot orc st).1 = some td) :
    ∃ ch, td.tracks = padPlaceholders slot.style slot.size ch := by
  simp only [fbPhase] at h
  split at h
  · exact absurd h (by simp)
  · split at h
    · cases h with
      | refl => exact ⟨_, rfl⟩
    · exact absurd h (by simp)

theorem processSlot_tracks (ws : List Track) (slot : SlotSpec) (orc : SlotOracle)
    (st : GenState) (td : Tanda) (h : (processSlot ws slot orc st).tanda = some td) :
    ∃ ch, td.tracks = padPlaceholders slot.style slot.size ch := by
  unfold processSlot at h
  rcases horch : orchPhase ws slot orc st with ⟨ot, st1⟩
  rw [horch] at h
  cases ot with
  | some td' =>
    simp only at h
    cases h
    exact orchPhase_tracks ws slot orc st td (by rw [horch])
  | none =>
    simp only at h
    exact fbPhase_tracks ws slot orc st1 td h

theorem runSlots_tracks (ws : List Track) :
    ∀ (plan : List (SlotSpec × SlotOracle)) (st : GenState),
    ∀ p ∈ (runSlots ws plan st).1, ∀ td, p.2 = some td →
      ∃ ch, td.tracks = padPlaceholders p.1.style p.1.size ch
  | [], st => by simp [runSlots]
  | (slot, orc) :: rest, st => by
    intro p hp td htd
    unfold runSlots at hp
    by_cases hb : st.remaining ≤ 60
    · rw [if_pos hb] at hp
      simp at hp
    · rw [if_neg hb] at hp
      by_cases hcr : (processSlot ws slot orc st).crashed = true
      · rw [if_pos hcr] at hp
        simp at hp
        rw [hp] at htd
        simp at htd
      · rw [if_neg hcr] at hp
        rcases List.mem_cons.mp hp with hhead | htail
        · rw [hhead] at htd
          simp only at htd
          rw [hhead]
          exact processSlot_tracks ws slot orc st td htd
        · exact runSlots_tracks ws rest (processSlot ws slot orc st).st p htail td htd

/-- C2 (amended).  Every emitted group's track list has length
`max(slot.size, number of accepted real tracks)`: placeholders pad any
shortfall up to the slot size, but when the oracle returns more resolvable
unused identities than the size they are all kept — nothing truncates the
group, so the length can exceed the slot size. -/
theorem c2_group_size_amended (ws : List Track) (minutes : Int)
    (plan : List (SlotSpec × SlotOracle)) :
    ∀ p ∈ (runGenerate ws minutes plan).outcomes, ∀ td, p.2 = some td →
      td.tracks.length = max p.1.size (td.tracks.countP isRealMember) := by
  intro p hp td htd
  obtain ⟨ch, hch⟩ := runSlots_tracks ws plan (initialState minutes) p hp td htd
  have hspec := padPlaceholders_spec p.1.style p.1.size ch
  rw [hch, hspec.1, hspec.2]

/-- A minimal Tango track for the C2 scenarios. -/
def c2Track (id : String) : Track :=
  { id := jstr id, title := jstr id, artist := jstr "O",
    genres := [jstr "Tango"], styles := [],
    audioDuration := some 100, formatDurationSec := none, duration := none,
    durationMs := none, length := none, bpm := none, energy := none,
    camelotKey := none, key := none, year := none, album := jstr "" }

def c2WS : List Track := [c2Track "t1", c2Track "t2", c2Track "t3"]

def c2Slot : SlotSpec := { style := jstr "Tango", role := none, size := 2 }

def c2Orc : SlotOracle :=
  { rank := some [jstr "O"], orchIds := [jstr "t1", jstr "t2", jstr "t3"],
    orchNotes := none, fbIds := [], fbNotes := none }

/-- C2 (counterexample).  A slot of size 2 whose oracle response contains
three valid unused identities: all three are accepted and the emitted
group has three tracks — the claimed `len(group.tracks) == slot.size` is
false under over-delivery; nothing truncates. -/
theorem c2_group_size_counterexample :
    c2Slot.size = 2 ∧
    ((runGenerate c2WS 100 [(c2Slot, c2Orc)]).tandas.map
      (fun td => td.tracks.length)) = [3] := by decide

def c2Orc1 : SlotOracle :=
  { rank := some [jstr "O"], orchIds := [jstr "t1"],
    orchNotes := none, fbIds := [], fbNotes := none }

def c2wTanda : Tanda :=
  { style := jstr "Tango", role := none,
    tracks := [Chosen.real (c2Track "t1"), Chosen.ph (jstr "Tango")],
    seconds := 100, notes := none }

/-- Witness for `c2_group_size_amended`: an under-delivered slot of size 2
is padded to exactly two members. -/
theorem c2_group_size_witness :
    c2wTanda.tracks.length = max c2Slot.size (c2wTanda.tracks.countP isRealMember) :=
  c2_group_size_amended c2WS 100 [(c2Slot, c2Orc1)] (c2Slot, some c2wTanda)
    (by decide) c2wTanda rfl

/-! ## Claim C3 — no duplicated identities across emitted groups -/

/-- The normalized identity keys of a group's real members, in order. -/
def tandaRealKeys (td : Tanda) : List JStr := td.tracks.filterMap chosenKey

theorem padPlaceholders_keys (style : JStr) (size : Nat) (ch : List Track) :
    (padPlaceholders style size ch).filterMap chosenKey =
      ch.map (fun t => matchKey (getId t)) := by
  unfold padPlaceholders
  rw [List.filterMap_append]
  have h1 : (ch.map Chosen.real).filterMap chosenKey =
      ch.map (fun t => matchKey (getId t)) := by
    induction ch with
    | nil => rfl
    | cons t rest ih =>
      simp only [List.map_cons, List.filterMap_cons]
      rw [ih]
      rfl
  have h2 : (List.replicate (size - ch.length) (Chosen.ph style)).filterMap chosenKey = [] := by
    rw [List.filterMap_eq_nil_iff]
    intro a ha
    rw [List.eq_of_mem_replicate ha]
    rfl
  rw [h1, h2, List.append_nil]

theorem orchPhase_keys (ws : List Track) (slot : SlotSpec) (orc : SlotOracle)
    (st : GenState) :
    (∀ k ∈ st.used, k ∈ (orchPhase ws slot orc st).2.used) ∧
    (∀ td, (orchPhase ws slot orc st).1 = some td →
      (tandaRealKeys td).Nodup ∧
      ∀ k ∈ tandaRealKeys td, k ∉ st.used ∧ k ∈ (orchPhase ws slot orc st).2.used) := by
  simp only [orchPhase]
  split
  · exact ⟨fun k hk => hk, fun td h => absurd h (by simp)⟩
  · split
    · exact ⟨fun k hk => hk, fun td h => absurd h (by simp)⟩
    · next target heq =>
      split
      · exact ⟨fun k hk => hk, fun td h => absurd h (by simp)⟩
      · obtain ⟨hgrow, hmem, hnodup⟩ :=
          chooseTracksOrch_keys ws target orc.orchIds st.used
        split
        · refine ⟨hgrow, ?_⟩
          intro td h
          cases h with
          | refl =>
            constructor
            · show (List.filterMap chosenKey (padPlaceholders slot.style slot.size _)).Nodup
              rw [padPlaceholders_keys]
              exact hnodup
            · intro k hk
              rw [tandaRealKeys, padPlaceholders_keys] at hk
              rw [List.mem_map] at hk
              obtain ⟨t, ht, rfl⟩ := hk
              exact hmem t ht
        · refine ⟨hgrow, ?_⟩
          intro td h
          exact absurd h (by simp)

theorem fbPhase_keys (ws : List Track) (slot : SlotSpec) (orc : SlotOracle)
    (st : GenState) :
    (∀ k ∈ st.used, k ∈ (fbPhase ws slot orc st).2.1.used) ∧
    (∀ td, (fbPhase ws slot orc st).1 = some td →
      (tandaRealKeys td).Nodup ∧
      ∀ k ∈ tandaRealKeys td, k ∉ st.used ∧ k ∈ (fbPhase ws slot orc st).2.1.used) := by
  simp only [fbPhase]
  split
  · exact ⟨fun k hk => hk, fun td h => absurd h (by simp)⟩
  · obtain ⟨hgrow, hmem, hnodup⟩ := chooseTracksAny_keys ws orc.fbIds st.used
    split
    · refine ⟨hgrow, ?_⟩
      intro td h
      cases h with
      | refl =>
        constructor
        · show (List.filterMap chosenKey (padPlaceholders slot.style slot.size _)).Nodup
          rw [padPlaceholders_keys]
          exact hnodup
        · intro k hk
          rw [tandaRealKeys, padPlaceholders_keys] at hk
          rw [List.mem_map] at hk
          obtain ⟨t, ht, rfl⟩ := hk
          exact hmem t ht
    · refine ⟨hgrow, ?_⟩
      intro td h
      exact absurd h (by simp)

theorem processSlot_keys (ws : List Track) (slot : SlotSpec) (orc : SlotOracle)
    (st : GenState) :
    (∀ k ∈ st.used, k ∈ (processSlot ws slot orc st).st.used) ∧
    (∀ td, (processSlot ws slot orc st).tanda = some td →
      (tandaRealKeys td).Nodup ∧
      ∀ k ∈ tandaRealKeys td, k ∉ st.used ∧ k ∈ (processSlot ws slot orc st).st.used) := by
  have horchk := orchPhase_keys ws slot orc st
  unfold processSlot
  rcases horch : orchPhase ws slot orc st with ⟨ot, st1⟩
  rw [horch] at horchk
  obtain ⟨hgrow1, hsome1⟩ := horchk
  cases ot with
  | some td' =>
    refine ⟨hgrow1, ?_⟩
    intro td h
    have hts : td' = td := by simpa using h
    subst hts
    exact hsome1 td' rfl
  | none =>
    have hfbk := fbPhase_keys ws slot orc st1
    obtain ⟨hgrow2, hsome2⟩ := hfbk
    refine ⟨fun k hk => hgrow2 k (hgrow1 k hk), ?_⟩
    intro td h
    simp only at h
    obtain ⟨hnd, hmem⟩ := hsome2 td h
    refine ⟨hnd, ?_⟩
    intro k hk
    obtain ⟨hn1, hm1⟩ := hmem k hk
    exact ⟨fun hc => hn1 (hgrow1 k hc), hm1⟩

/-- All normalized identity keys emitted by a list of slot outcomes. -/
def runKeys (outs : List (SlotSpec × Option Tanda)) : List JStr :=
  (List.map tandaRealKeys (outs.filterMap (·.2))).flatten

theorem runSlots_keys (ws : List Track) :
    ∀ (plan : List (SlotSpec × SlotOracle)) (st : GenState),
    (runKeys (runSlots ws plan st).1).Nodup ∧
    (∀ k ∈ runKeys (runSlots ws plan st).1, k ∉ st.used)
  | [], st => by simp [runSlots, runKeys]
  | (slot, orc) :: rest, st => by
    have hps := processSlot_keys ws slot orc st
    obtain ⟨hgrow, hsome⟩ := hps
    unfold runSlots
    by_cases hb : st.remaining ≤ 60
    · rw [if_pos hb]
      simp [runKeys]
    · rw [if_neg hb]
      by_cases hcr : (processSlot ws slot orc st).crashed = true
      · rw [if_pos hcr]
        simp [runKeys]
      · rw [if_neg hcr]
        obtain ⟨ihnodup, ihfresh⟩ := runSlots_keys ws rest (processSlot ws slot orc st).st
        cases htd : (processSlot ws slot orc st).tanda with
        | none =>
          constructor
          · simp only [runKeys, List.filterMap_cons, htd]
            exact ihnodup
          · intro k hk
            simp only [runKeys, List.filterMap_cons, htd] at hk
            intro hc
            exact ihfresh k hk (hgrow k hc)
        | some td =>
          obtain ⟨hnd, hmem⟩ := hsome td htd
          constructor
          · simp only [runKeys, List.filterMap_cons, htd, List.map_cons, List.flatten_cons]
            rw [List.nodup_append]
            refine ⟨hnd, ihnodup, ?_⟩
            intro k hk1 hk2
            obtain ⟨_, hm1⟩ := hmem k hk1
            exact ihfresh k hk2 hm1
          · intro k hk
            simp only [runKeys, List.filterMap_cons, htd, List.map_cons, List.flatten_cons,
              List.mem_append] at hk
            rcases hk with hk1 | hk2
            · exact (hmem k hk1).1
            · intro hc
              exact ihfresh k hk2 (hgrow k hc)

/-- C3.  Within one generation run no normalized track identity occurs in
more than one emitted group (and none occurs twice inside a group): the
ordered list of all emitted real-track match keys has no duplicates.  The
`isUsed` guard before each acceptance, together with the immediate
`markUsed` of the resolved id (whose match key equals the queried key),
makes replanning unable to reintroduce a used identity — id variants that
differ in case, URL-encoding, path separators or extension share one match
key, so they are covered by the same guard. -/
theorem c3_no_duplicate_identities (ws : List Track) (minutes : Int)
    (plan : List (SlotSpec × SlotOracle)) :
    (List.map tandaRealKeys ((runGenerate ws minutes plan).tandas)).flatten.Nodup :=
  (runSlots_keys ws plan (initialState minutes)).1

/-! ## Claim C4 — validation of oracle-returned identities -/

/-- The candidate list actually supplied to the oracle for an
orchestra-path slot: the orchestra-filtered role pool, slimmed and capped
at 80 (generate.js 3132-3145), then run through the `planOneTanda`
candidate filter (750-852) whose result is capped at `CAND_MAX = 80`. -/
def suppliedOrchCandidates (ws : List Track) (style : JStr) (role : Option JStr)
    (used : List JStr) (target : JStr) (size : Nat) : List ShortRow :=
  planOneTandaCandidates
    ((((baseRolePool ws style role used).filter (fun t => t.artist = target)).take 80).map slimRow)
    (some ((baseRolePool ws style role used).map slimRow))
    (some target) size

theorem chooseTracksOrch_mem (ws : List Track) (target : JStr) :
    ∀ (ids used : List JStr),
    ∀ t ∈ (chooseTracksOrch ws target used ids).1, t ∈ ws ∧ t.artist = target
  | [], used => by simp [chooseTracksOrch]
  | id :: rest, used => by
    intro t ht
    simp only [chooseTracksOrch] at ht
    by_cases hu : isUsed used id = true
    · simp only [hu, if_true] at ht
      exact chooseTracksOrch_mem ws target rest used t ht
    · simp only [eq_false_of_ne_true hu, Bool.false_eq_true, if_false] at ht
      rcases hres : resolveByAnyId ws id with _ | tr
      · rw [hres] at ht
        exact chooseTracksOrch_mem ws target rest used t ht
      · rw [hres] at ht
        dsimp only at ht
        by_cases hart : tr.artist = target
        · rw [if_pos hart] at ht
          rcases List.mem_cons.mp ht with rfl | ht'
          · exact ⟨(resolveByAnyId_key hres).1, hart⟩
          · exact chooseTracksOrch_mem ws target rest _ t ht'
        · rw [if_neg hart] at ht
          exact chooseTracksOrch_mem ws target rest used t ht

theorem chooseTracksAny_mem (ws : List Track) :
    ∀ (ids used : List JStr),
    ∀ t ∈ (chooseTracksAny ws used ids).1, t ∈ ws
  | [], used => by simp [chooseTracksAny]
  | id :: rest, used => by
    intro t ht
    simp only [chooseTracksAny] at ht
    by_cases hu : isUsed used id = true
    · simp only [hu, if_true] at ht
      exact chooseTracksAny_mem ws rest used t ht
    · simp only [eq_false_of_ne_true hu, Bool.false_eq_true, if_false] at ht
      rcases hres : resolveByAnyId ws id with _ | tr
      · rw [hres] at ht
        exact chooseTracksAny_mem ws rest used t ht
      · rw [hres] at ht
        dsimp only at ht
        rcases List.mem_cons.mp ht with rfl | ht'
        · exact (resolveByAnyId_key hres).1
        · exact chooseTracksAny_mem ws rest _ t ht'

/-- C4 (amended).  What the acceptance loops really validate: a returned
identity is kept exactly when it resolves against the WHOLE working set
(and, on the orchestra path, when the resolved artist equals the target
orchestra); identities that fail to resolve are silently discarded.
Membership in the candidate list supplied to that oracle request is NOT
checked — see the counterexample. -/
theorem c4_acceptance_amended (ws : List Track) (target : JStr) (used ids : List JStr) :
    (∀ t ∈ (chooseTracksOrch ws target used ids).1, t ∈ ws ∧ t.artist = target) ∧
    (∀ t ∈ (chooseTracksAny ws used ids).1, t ∈ ws) :=
  ⟨chooseTracksOrch_mem ws target ids used, chooseTracksAny_mem ws ids used⟩

/-- A C4 track: `genre` distinguishes the Tango pool from the Vals pool. -/
def c4Track (id : String) (genre : String) : Track :=
  { id := jstr id, title := jstr id, artist := jstr "O",
    genres := [jstr genre], styles := [],
    audioDuration := some 100, formatDurationSec := none, duration := none,
    durationMs := none, length := none, bpm := none, energy := none,
    camelotKey := none, key := none, year := none, album := jstr "" }

def c4WS : List Track :=
  [c4Track "t1" "Tango", c4Track "t1b" "Tango", c4Track "t2" "Vals"]

def c4Slot : SlotSpec := { style := jstr "Tango", role := none, size := 2 }

def c4Orc : SlotOracle :=
  { rank := some [jstr "O"], orchIds := [jstr "t1", jstr "t2"],
    orchNotes := none, fbIds := [], fbNotes := none }

/-- C4 (counterexample).  The oracle request for the Tango slot carries
only the Tango candidates `t1`, `t1b`; the oracle answers with `t2` — a
Vals track absent from that candidate list — and, because acceptance only
resolves ids against the whole working set and compares the artist, `t2`
lands in the emitted group instead of being discarded. -/
theorem c4_unlisted_id_counterexample :
    ((suppliedOrchCandidates c4WS (jstr "Tango") none [] (jstr "O") 2).map (·.id)) =
      [jstr "t1", jstr "t1b"] ∧
    (jstr "t2") ∉
      ((suppliedOrchCandidates c4WS (jstr "Tango") none [] (jstr "O") 2).map (·.id)) ∧
    ((runGenerate c4WS 10 [(c4Slot, c4Orc)]).tandas.map tandaRealKeys) =
      [[matchKey (jstr "t1"), matchKey (jstr "t2")]] := by decide

/-- Witness for `c4_acceptance_amended` at a concrete accepted id. -/
theorem c4_acceptance_witness :
    c4Track "t1" "Tango" ∈ c4WS ∧ (c4Track "t1" "Tango").artist = jstr "O" :=
  (c4_acceptance_amended c4WS (jstr "O") [] [jstr "t1"]).1
    (c4Track "t1" "Tango") (by decide)

/-! ## Claim C5 — the retry-ladder trigger (`planOneTandaWithRetry`,
generate.js 611-714)

Each `planOneTanda` call is an oracle round trip; its outcome is an input
(`none` models a thrown call).  `alts` pairs up with the list of
alternative orchestras from `getAlternativeOrchestras` (at most 8 names);
the loop visits at most `maxRetries = 3` of them — neither call site
overrides the default. -/

/-- The schema-validated result of one `planOneTanda` call. -/
structure PlanResult where
  style : JStr
  trackIds : List JStr
  notes : Option JStr
  warnings : Option (List JStr)
deriving DecidableEq, Repr

/-- `countReal` (generate.js 644): the returned ids that are not the
`"replace"` placeholder; 0 for a null result. -/
def countRealIds : Option PlanResult → Nat
  | none => 0
  | some r => (r.trackIds.filter (fun id => !(id = jstr "replace" : Bool))).length

/-- The alternative-orchestra loop (653-685): visit each attempt, keep the
result when it has strictly more real ids than the best so far, stop early
once an attempt reaches `size - 1` real ids; thrown attempts change
nothing.  Returns the best result and the number of attempts made. -/
def retryLoop (size : Nat) : List (Option PlanResult) → Option PlanResult → Nat →
    Option PlanResult × Nat
  | [], last, n => (last, n)
  | att :: rest, last, n =>
    match att with
    | none => retryLoop size rest last (n + 1)
    | some r =>
      if countRealIds last < countRealIds (some r) then
        if (size : Int) - 1 ≤ (countRealIds (some r) : Int) then (some r, n + 1)
        else retryLoop size rest (some r) (n + 1)
      else
        if (size : Int) - 1 ≤ (countRealIds (some r) : Int) then (last, n + 1)
        else retryLoop size rest last (n + 1)

/-- The alternative-orchestra phase (646-686): entered exactly when the
first attempt threw or produced fewer than `Math.max(1, size - 2)` real
ids. -/
def retryPhase (size : Nat) (first : Option PlanResult)
    (alts : List (Option PlanResult)) : Option PlanResult × Nat :=
  if first = none ∨ (countRealIds first : Int) < max 1 ((size : Int) - 2) then
    retryLoop size (alts.take 3) first 0
  else (first, 0)

/-- Merging the no-orchestra fallback attempt (695-705): keep it only when
it has strictly more real ids; a thrown call (`none`) changes nothing. -/
def mergeFallback (last1 fallback : Option PlanResult) : Option PlanResult :=
  match fallback with
  | some fr => if countRealIds last1 < countRealIds (some fr) then some fr else last1
  | none => last1

/-- The non-null default returned when everything failed (713). -/
def defaultPlanResult (style : JStr) : PlanResult :=
  { style := style, trackIds := [],
    notes := some (jstr "No tracks found after retries"),
    warnings := some [jstr "Empty tanda"] }

/-- `planOneTandaWithRetry`: first attempt, alternative-orchestra phase,
then the no-orchestra fallback (688-711) exactly when the best result so
far is still null or has zero real ids.  Returns the result, the number of
alternative-orchestra retries made, and whether the fallback ran. -/
def planOneTandaWithRetry (style : JStr) (size : Nat) (first : Option PlanResult)
    (alts : List (Option PlanResult)) (fallback : Option PlanResult) :
    PlanResult × Nat × Bool :=
  if (retryPhase size first alts).1 = none ∨
      countRealIds (retryPhase size first alts).1 = 0 then
    ((mergeFallback (retryPhase size first alts).1 fallback).getD (defaultPlanResult style),
     (retryPhase size first alts).2, true)
  else
    ((retryPhase size first alts).1.getD (defaultPlanResult style),
     (retryPhase size first alts).2, false)

theorem retryLoop_ge (size : Nat) :
    ∀ (l : List (Option PlanResult)) (acc : Option PlanResult) (n : Nat),
      n ≤ (retryLoop size l acc n).2
  | [], _, n => le_refl n
  | att :: rest, acc, n => by
    simp only [retryLoop]
    cases att with
    | none => exact le_trans (Nat.le_succ n) (retryLoop_ge size rest acc (n + 1))
    | some rr =>
      dsimp only
      by_cases h1 : countRealIds acc < countRealIds (some rr)
      · rw [if_pos h1]
        by_cases h2 : (size : Int) - 1 ≤ (countRealIds (some rr) : Int)
        · rw [if_pos h2]
          exact Nat.le_succ n
        · rw [if_neg h2]
          exact le_trans (Nat.le_succ n) (retryLoop_ge size rest (some rr) (n + 1))
      · rw [if_neg h1]
        by_cases h2 : (size : Int) - 1 ≤ (countRealIds (some rr) : Int)
        · rw [if_pos h2]
          exact Nat.le_succ n
        · rw [if_neg h2]
          exact le_trans (Nat.le_succ n) (retryLoop_ge size rest acc (n + 1))

theorem retryLoop_pos (size : Nat) (alts : List (Option PlanResult))
    (last : Option PlanResult) (h : alts ≠ []) :
    0 < (retryLoop size alts last 0).2 := by
  cases alts with
  | nil => exact absurd rfl h
  | cons a rest =>
    simp only [retryLoop]
    cases a with
    | none => exact lt_of_lt_of_le Nat.zero_lt_one (retryLoop_ge size rest last 1)
    | some rr =>
      dsimp only
      by_cases h1 : countRealIds last < countRealIds (some rr)
      · rw [if_pos h1]
        by_cases h2 : (size : Int) - 1 ≤ (countRealIds (some rr) : Int)
        · rw [if_pos h2]
          exact Nat.zero_lt_one
        · rw [if_neg h2]
          exact lt_of_lt_of_le Nat.zero_lt_one (retryLoop_ge size rest (some rr) 1)
      · rw [if_neg h1]
        by_cases h2 : (size : Int) - 1 ≤ (countRealIds (some rr) : Int)
        · rw [if_pos h2]
          exact Nat.zero_lt_one
        · rw [if_neg h2]
          exact lt_of_lt_of_le Nat.zero_lt_one (retryLoop_ge size rest last 1)

/-- A first attempt with two real ids (for the C5 scenarios). -/
def c5First : PlanResult :=
  { style := jstr "Tango", trackIds := [jstr "a", jstr "b"],
    notes := none, warnings := none }

/-- An alternative-orchestra attempt with four real ids. -/
def c5Alt : PlanResult :=
  { style := jstr "Tango", trackIds := [jstr "a", jstr "b", jstr "c", jstr "d"],
    notes := none, warnings := none }

/-- C5 (counterexample).  A size-4 slot whose first attempt produced two
real identities: two is below `size - 1 = 3`, yet no alternative-origin
retry is made, because the code's trigger is
`countReal < Math.max(1, size - 2) = 2`. -/
theorem c5_retry_trigger_counterexample :
    ((countRealIds (some c5First) : Int) < 4 - 1) ∧
    (planOneTandaWithRetry (jstr "Tango") 4 (some c5First) [some c5Alt] none).2.1 = 0 := by
  decide

/-- C5 (amended).  With at least one alternative origin available, the
alternative-origin retries run exactly when the first attempt threw or
returned fewer than `max(1, size - 2)` real identities; the
no-origin-restriction fallback runs exactly when the best result after
those retries is still null or has zero real identities. -/
theorem c5_retry_trigger_amended (style : JStr) (size : Nat)
    (first : Option PlanResult) (alts : List (Option PlanResult))
    (fallback : Option PlanResult) (h : alts ≠ []) :
    (0 < (planOneTandaWithRetry style size first alts fallback).2.1 ↔
      (first = none ∨ (countRealIds first : Int) < max 1 ((size : Int) - 2))) ∧
    ((planOneTandaWithRetry style size first alts fallback).2.2 = true ↔
      ((retryPhase size first alts).1 = none ∨
        countRealIds (retryPhase size first alts).1 = 0)) := by
  have hret : (planOneTandaWithRetry style size first alts fallback).2.1 =
      (retryPhase size first alts).2 := by
    unfold planOneTandaWithRetry
    split <;> rfl
  constructor
  · rw [hret]
    constructor
    · intro hpos
      by_contra hno
      have h0 : (retryPhase size first alts).2 = 0 := by
        unfold retryPhase
        rw [if_neg hno]
      omega
    · intro htrig
      have hretr : (retryPhase size first alts).2 =
          (retryLoop size (alts.take 3) first 0).2 := by
        unfold retryPhase
        rw [if_pos htrig]
      rw [hretr]
      refine retryLoop_pos size (alts.take 3) first ?_
      cases alts with
      | nil => exact absurd rfl h
      | cons a rest => simp [List.take]
  · unfold planOneTandaWithRetry
    split
    · next hc => simpa using hc
    · next hc => simpa using hc

/-- A retry attempt with three real ids (for the C5 witness). -/
def c5wAlt : PlanResult :=
  { style := jstr "Tango", trackIds := [jstr "a", jstr "b", jstr "c"],
    notes := none, warnings := none }

/-- Witness for `c5_retry_trigger_amended`: a thrown first attempt with
one alternative available triggers the retry ladder. -/
theorem c5_retry_trigger_witness :
    [some c5wAlt] ≠ ([] : List (Option PlanResult)) ∧
    0 < (planOneTandaWithRetry (jstr "Tango") 4 none [some c5wAlt] none).2.1 :=
  ⟨by decide,
   ((c5_retry_trigger_amended (jstr "Tango") 4 none [some c5wAlt] none (by decide)).1).mpr
     (Or.inl rfl)⟩

/-! ## The replacement endpoint `/api/agent/replace` (generate.js 1692-2209)

The model starts from the catalog-restricted working set (generate.js
1728-1758: `LIBRARY` filtered down to the catalog keys and merged with its
overrides), taken as an input list.  The LLM call of `replaceAgent`
(2069-2070) is an optional `ReplaceOut` input, `none` standing for a
failed run or a schema rejection, and `Math.random()` (2097) is the index
input `randIdx`.  `targetOrchestra` is the value computed at generate.js
1853-1869 (the dominant orchestra of the current tanda under
`homogenize`, else the trimmed request orchestra, both `null` when
empty); it is universally quantified, so every possible narrowing is
covered. -/

/-- `toSet` (generate.js 480-484): the set of normalized match keys of a
request id list. -/
def toSet (ids : List JStr) : List JStr := ids.map matchKey

/-- `wantStyle` (generate.js 1711): `String(style).trim().toLowerCase()`. -/
def wantStyleOf (style : JStr) : JStr := jsToLower (jsTrim style)

/-- `hasStyle` (generate.js 1820-1825): some declared style (or genre,
when no styles are present), trimmed and lowercased, equals the wanted
style. -/
def hasStyle (want : JStr) (t : Track) : Bool :=
  (if t.styles ≠ [] then t.styles else t.genres).any
    (fun s => jsToLower (jsTrim s) == want)

/-- `idKeyOf` (generate.js 1826). -/
def idKeyOf (t : Track) : JStr := matchKey (getId t)

/-- The base pool (generate.js 1827-1831): same style, not in the avoid
set, not previously selected. -/
def repBase (ws : List Track) (want : JStr) (avoidK prevK : List JStr) :
    List Track :=
  ws.filter (fun t =>
    hasStyle want t && !avoidK.contains (idKeyOf t) &&
      !prevK.contains (idKeyOf t))

/-- Orchestra narrowing (generate.js 1871-1877): with a target orchestra
and no broadening need, restrict to its tracks when at least
`Math.min(3, topK)` strict matches remain. -/
def narrowOrchestra (targetOrchestra : Option JStr) (needsBroadening : Bool)
    (topK : Nat) (base : List Track) : List Track :=
  match targetOrchestra with
  | none => base
  | some o =>
    if needsBroadening then base
    else if min 3 topK ≤ (base.filter (fun t => t.artist == o)).length then
      base.filter (fun t => t.artist == o)
    else base

/-- `getCompatibleStyles` (generate.js 454-465). -/
def getCompatibleStyles (mainStyle : JStr) : List JStr :=
  if jsToLower mainStyle = jstr "tango" then
    [jstr "tango", jstr "vals", jstr "milonga"]
  else if jsToLower mainStyle = jstr "vals" then [jstr "vals", jstr "tango"]
  else if jsToLower mainStyle = jstr "milonga" then
    [jstr "milonga", jstr "tango"]
  else if jsToLower mainStyle = jstr "waltz" then [jstr "vals", jstr "tango"]
  else if jsToLower mainStyle = jstr "valz" then [jstr "vals", jstr "tango"]
  else [jsToLower mainStyle]

/-- `hasCompatibleStyle` (generate.js 1898-1906). -/
def hasCompatibleStyle (want : JStr) (t : Track) : Bool :=
  (if t.styles ≠ [] then t.styles else t.genres).any
    (fun s => (getCompatibleStyles want).contains (jsToLower (jsTrim s)))

/-- Broadening step 1 (generate.js 1884-1891): with an orchestra
restriction in force, rebuild the style pool without it. -/
def broadenStep1 (ws : List Track) (want : JStr) (avoidK prevK : List JStr)
    (targetOrchestra : Option JStr) (base : List Track) : List Track :=
  match targetOrchestra with
  | some _ => repBase ws want avoidK prevK
  | none => base

/-- Broadening step 2 (generate.js 1894-1918): below `Math.max(1, topK)`
rows, expand to compatible styles when that strictly grows the pool. -/
def broadenStep2 (ws : List Track) (want : JStr) (avoidK prevK : List JStr)
    (topK : Nat) (base : List Track) : List Track :=
  if base.length < max 1 topK then
    if base.length <
        (ws.filter (fun t =>
          hasCompatibleStyle want t && !avoidK.contains (idKeyOf t) &&
            !prevK.contains (idKeyOf t))).length then
      ws.filter (fun t =>
        hasCompatibleStyle want t && !avoidK.contains (idKeyOf t) &&
          !prevK.contains (idKeyOf t))
    else base
  else base

/-- Broadening step 3 (generate.js 1921-1928): still empty, take any
genre, still excluding avoided and previously selected keys. -/
def broadenStep3 (ws : List Track) (avoidK prevK : List JStr)
    (base : List Track) : List Track :=
  if base.length = 0 then
    ws.filter (fun t =>
      !avoidK.contains (idKeyOf t) && !prevK.contains (idKeyOf t))
  else base

/-- The broadening block (generate.js 1880-1929), entered when the pool
is empty, or below `topK` with broadening requested. -/
def broadenPool (ws : List Track) (want : JStr) (avoidK prevK : List JStr)
    (targetOrchestra : Option JStr) (needsBroadening : Bool) (topK : Nat)
    (base : List Track) : List Track :=
  if base.length = 0 ∨ (base.length < topK ∧ needsBroadening = true) then
    broadenStep3 ws avoidK prevK
      (broadenStep2 ws want avoidK prevK topK
        (broadenStep1 ws want avoidK prevK targetOrchestra base))
  else base

/-- JavaScript numeric truthiness of an optional number. -/
def truthyNum : Option Rat → Bool
  | some q => q != 0
  | none => false

/-- The neighbor data of a replacement request (generate.js 1932-1937). -/
structure Neighbors where
  prevKey : Option JStr
  nextKey : Option JStr
  prevBpm : Option Rat
  nextBpm : Option Rat
  prevEn : Option Rat
  nextEn : Option Rat
deriving DecidableEq, Repr

/-- `score` (generate.js 1939-1957): camelot distance to each neighbor
key capped at 4, plus 0.05 per BPM point and 0.2 per energy point of
difference (a null camelot key hits the sentinel branch of
`camelotDistance`, modeled by the off-wheel key `[]`). -/
def replaceScore (nb : Neighbors) (t : Track) : Rat :=
  let cam := (keyToCamelot t).getD []
  let kPrev : Int := match nb.prevKey with
    | some s => if s = [] then 0 else camelotDistance s cam
    | none => 0
  let kNext : Int := match nb.nextKey with
    | some s => if s = [] then 0 else camelotDistance s cam
    | none => 0
  let bPrev : Rat := if truthyNum nb.prevBpm && truthyNum (bpmOf t) then
      |nb.prevBpm.getD 0 - (bpmOf t).getD 0| else 0
  let bNext : Rat := if truthyNum nb.nextBpm && truthyNum (bpmOf t) then
      |nb.nextBpm.getD 0 - (bpmOf t).getD 0| else 0
  let ePrev : Rat := if truthyNum nb.prevEn && truthyNum (energyOf t) then
      |nb.prevEn.getD 0 - (energyOf t).getD 0| else 0
  let eNext : Rat := if truthyNum nb.nextEn && truthyNum (energyOf t) then
      |nb.nextEn.getD 0 - (energyOf t).getD 0| else 0
  ((min 4 kPrev + min 4 kNext : Int) : Rat) +
    5 / 100 * (bPrev + bNext) + 2 / 10 * (ePrev + eNext)

/-- The final candidate pool of the replacement route: base pool,
orchestra narrowing, broadening, then the stable ascending sort by
continuity cost (generate.js 1959-1961). -/
def repPool (ws : List Track) (want : JStr) (avoidK prevK : List JStr)
    (targetOrchestra : Option JStr) (needsBroadening : Bool) (topK : Nat)
    (nb : Neighbors) : List Track :=
  sortByCost (replaceScore nb)
    (broadenPool ws want avoidK prevK targetOrchestra needsBroadening topK
      (narrowOrchestra targetOrchestra needsBroadening topK
        (repBase ws want avoidK prevK)))

/-- The slim candidate row sent to the agent (generate.js 1973-1981). -/
def repSlimRow (t : Track) : ShortRow :=
  { id := getId t
    title := t.title
    artist := t.artist
    seconds := if durationSec t ≠ 0 then some (durationSec t) else none
    bpm := bpmOf t
    energy := energyOf t
    camelotKey := keyToCamelot t }

/-- `slim` (generate.js 1973): the sorted pool capped at
`Math.max(80, topK)` rows. -/
def repSlim (topK : Nat) (pool : List Track) : List ShortRow :=
  (pool.take (max 80 topK)).map repSlimRow

/-- The schema-parsed agent output (`ReplacementResult`): a chosen id and
suggestion ids (suggestion reasons are passed through unchanged and
omitted here). -/
structure ReplaceOut where
  chosenId : JStr
  suggestions : List JStr
deriving DecidableEq, Repr

/-- `validCandidates` (generate.js 2086-2089): the slim rows re-filtered
against both sets. -/
def validCandidatesOf (avoidK prevK : List JStr) (slim : List ShortRow) :
    List ShortRow :=
  slim.filter (fun r =>
    !avoidK.contains (matchKey r.id) && !prevK.contains (matchKey r.id))

/-- generate.js 2091-2094: all slim rows when the re-filter is empty. -/
def vcPool (avoidK prevK : List JStr) (slim : List ShortRow) :
    List ShortRow :=
  if (validCandidatesOf avoidK prevK slim).length = 0 then slim
  else validCandidatesOf avoidK prevK slim

/-- `fallbackTrack` (generate.js 2097-2098): the row at the random index,
else the first slim row. -/
def fallbackRow (avoidK prevK : List JStr) (slim : List ShortRow)
    (randIdx : Nat) : Option ShortRow :=
  match (vcPool avoidK prevK slim)[randIdx % (vcPool avoidK prevK slim).length]? with
  | some r => some r
  | none => slim.head?

/-- The fallback selection of the catch block (generate.js 2085-2106):
pick the fallback row's id and suggest the first `Math.min(topK, 6)` slim
rows other than the chosen id. -/
def fallbackSelect (avoidK prevK : List JStr) (topK : Nat)
    (slim : List ShortRow) (randIdx : Nat) : Option JStr × List JStr :=
  ((fallbackRow avoidK prevK slim randIdx).map (fun r => r.id),
   ((slim.take (min topK 6)).filter (fun s =>
       !((fallbackRow avoidK prevK slim randIdx).map (fun r => r.id) ==
         some s.id))).map (fun s => s.id))

/-- The agent phase (generate.js 2067-2107): on a successful run whose
chosen id is in neither set, keep the agent's choice and suggestions;
otherwise (failed run, schema rejection, or an avoided / previously
selected choice) run the fallback selection. -/
def agentPhase (avoidK prevK : List JStr) (topK : Nat)
    (slim : List ShortRow) (oracle : Option ReplaceOut) (randIdx : Nat) :
    Option JStr × List JStr :=
  match oracle with
  | some out =>
    if avoidK.contains (matchKey out.chosenId) ||
        prevK.contains (matchKey out.chosenId) then
      fallbackSelect avoidK prevK topK slim randIdx
    else (some out.chosenId, out.suggestions)
  | none => fallbackSelect avoidK prevK topK slim randIdx

/-- Step 8 resolution (generate.js 2110): the chosen id through
`resolveId`, else the first slim row's id (a null chosen id normalizes to
the empty key, hence the `[]` default). -/
def resolveChosen (ws : List Track) (slim : List ShortRow)
    (chosenId : Option JStr) : Option Track :=
  match resolveByAnyId ws (chosenId.getD []) with
  | some t => some t
  | none =>
    match slim.head? with
    | some r => resolveByAnyId ws r.id
    | none => none

/-- `suggestionsOut` (generate.js 2146-2165), reduced to ids: drop
suggestions in either set or equal to the replacement key, resolve each
id against the working set (keeping it verbatim when unresolved), cap at
`topK`. -/
def suggestionsOutIds (ws : List Track) (avoidK prevK : List JStr)
    (topK : Nat) (replacementId : JStr) (sugs : List JStr) : List JStr :=
  ((sugs.filter (fun sid =>
      !avoidK.contains (matchKey sid) && !prevK.contains (matchKey sid) &&
        !(matchKey sid == matchKey replacementId))).map (fun sid =>
    match resolveByAnyId ws sid with
    | some t => getId t
    | none => sid)).take topK

/-- The additional suggestions (generate.js 2168-2190): top-ups from the
slim list, excluding both sets, the replacement key and keys already
suggested. -/
def additionalSuggestions (avoidK prevK : List JStr) (topK : Nat)
    (replacementId : JStr) (slim : List ShortRow) (sugOut : List JStr) :
    List JStr :=
  ((slim.filter (fun s =>
      !avoidK.contains (matchKey s.id) && !prevK.contains (matchKey s.id) &&
        !(matchKey s.id == matchKey replacementId) &&
        !(sugOut.any (fun e => matchKey e == matchKey s.id)))).take
    (topK - sugOut.length)).map (fun s => s.id)

/-- The id content of a successful replacement response. -/
structure ReplaceResponse where
  replacementId : JStr
  suggestionIds : List JStr
deriving DecidableEq, Repr

/-- The suggestion list of the response: filtered agent suggestions plus
slim top-ups (generate.js 2146-2190). -/
def finalSuggestions (ws : List Track) (avoidK prevK : List JStr)
    (topK : Nat) (replacementId : JStr) (slim : List ShortRow)
    (sugs : List JStr) : List JStr :=
  suggestionsOutIds ws avoidK prevK topK replacementId sugs ++
    additionalSuggestions avoidK prevK topK replacementId slim
      (suggestionsOutIds ws avoidK prevK topK replacementId sugs)

/-- The outcome of the route: an HTTP error status or the response ids. -/
inductive ReplaceResult where
  | err (status : Nat)
  | ok (resp : ReplaceResponse)
deriving DecidableEq, Repr

/-- Steps 8-9 (generate.js 2109-2205): resolve the chosen id, 500 on
failure, 500 when the replacement key is still avoided, else the
response. -/
def replaceFinish (ws : List Track) (avoidK prevK : List JStr)
    (topK : Nat) (slim : List ShortRow) (agent : Option JStr × List JStr) :
    ReplaceResult :=
  match resolveChosen ws slim agent.1 with
  | none => ReplaceResult.err 500
  | some chosen =>
    if avoidK.contains (matchKey (getId chosen)) then ReplaceResult.err 500
    else ReplaceResult.ok
      { replacementId := getId chosen
        suggestionIds :=
          finalSuggestions ws avoidK prevK topK (getId chosen) slim agent.2 }

/-- Everything after the slim pool is built: the 404 guard on an empty
pool (generate.js 2004-2044), the agent phase and the finish. -/
def replaceAfterPool (ws : List Track) (avoidK prevK : List JStr)
    (topK : Nat) (slim : List ShortRow) (oracle : Option ReplaceOut)
    (randIdx : Nat) : ReplaceResult :=
  if slim.length = 0 then ReplaceResult.err 404
  else replaceFinish ws avoidK prevK topK slim
    (agentPhase avoidK prevK topK slim oracle randIdx)

/-- `/api/agent/replace` (generate.js 1692-2209), from the merged working
set on: 422 on an empty working set (generate.js 1760-1812), then pool
construction, slimming, the agent phase and the response.
`needsBroadening` is `previouslySelected.length > 0` (1724). -/
def replaceRoute (ws : List Track) (style : JStr)
    (targetOrchestra : Option JStr) (nb : Neighbors)
    (avoidIds prevSelected : List JStr) (topK randIdx : Nat)
    (oracle : Option ReplaceOut) : ReplaceResult :=
  if ws.length = 0 then ReplaceResult.err 422
  else replaceAfterPool ws (toSet avoidIds) (toSet prevSelected) topK
    (repSlim topK
      (repPool ws (wantStyleOf style) (toSet avoidIds) (toSet prevSelected)
        targetOrchestra (!prevSelected.isEmpty) topK nb))
    oracle randIdx

theorem contains_false_not_mem {l : List JStr} {k : JStr}
    (h : l.contains k = false) : k ∉ l := by
  simpa using h

theorem not_mem_contains_false {l : List JStr} {k : JStr}
    (h : k ∉ l) : l.contains k = false := by
  simpa using h

theorem mem_contains_true {l : List JStr} {k : JStr} (h : k ∈ l) :
    l.contains k = true := by
  simpa using h

theorem repBase_keys (ws : List Track) (want : JStr)
    (avoidK prevK : List JStr) :
    ∀ t ∈ repBase ws want avoidK prevK,
      matchKey (getId t) ∉ avoidK ∧ matchKey (getId t) ∉ prevK := by
  intro t ht
  unfold repBase at ht
  rw [List.mem_filter] at ht
  have hp := ht.2
  simp only [Bool.and_eq_true, Bool.not_eq_true'] at hp
  exact ⟨contains_false_not_mem hp.1.2, contains_false_not_mem hp.2⟩

theorem narrowOrchestra_subset (targetOrchestra : Option JStr)
    (needsBroadening : Bool) (topK : Nat) (base : List Track) :
    ∀ t ∈ narrowOrchestra targetOrchestra needsBroadening topK base,
      t ∈ base := by
  intro t ht
  unfold narrowOrchestra at ht
  cases targetOrchestra with
  | none => exact ht
  | some o =>
    dsimp only at ht
    split at ht
    · exact ht
    · split at ht
      · exact (List.mem_filter.mp ht).1
      · exact ht

theorem broadenStep1_keys (ws : List Track) (want : JStr)
    (avoidK prevK : List JStr) (targetOrchestra : Option JStr)
    (base : List Track)
    (hb : ∀ t ∈ base, matchKey (getId t) ∉ avoidK ∧ matchKey (getId t) ∉ prevK) :
    ∀ t ∈ broadenStep1 ws want avoidK prevK targetOrchestra base,
      matchKey (getId t) ∉ avoidK ∧ matchKey (getId t) ∉ prevK := by
  intro t ht
  unfold broadenStep1 at ht
  cases targetOrchestra with
  | none => exact hb t ht
  | some o => exact repBase_keys ws want avoidK prevK t ht

theorem broadenStep2_keys (ws : List Track) (want : JStr)
    (avoidK prevK : List JStr) (topK : Nat) (base : List Track)
    (hb : ∀ t ∈ base, matchKey (getId t) ∉ avoidK ∧ matchKey (getId t) ∉ prevK) :
    ∀ t ∈ broadenStep2 ws want avoidK prevK topK base,
      matchKey (getId t) ∉ avoidK ∧ matchKey (getId t) ∉ prevK := by
  intro t ht
  unfold broadenStep2 at ht
  split at ht
  · split at ht
    · rw [List.mem_filter] at ht
      have hp := ht.2
      simp only [Bool.and_eq_true, Bool.not_eq_true'] at hp
      exact ⟨contains_false_not_mem hp.1.2, contains_false_not_mem hp.2⟩
    · exact hb t ht
  · exact hb t ht

theorem broadenStep3_keys (ws : List Track) (avoidK prevK : List JStr)
    (base : List Track)
    (hb : ∀ t ∈ base, matchKey (getId t) ∉ avoidK ∧ matchKey (getId t) ∉ prevK) :
    ∀ t ∈ broadenStep3 ws avoidK prevK base,
      matchKey (getId t) ∉ avoidK ∧ matchKey (getId t) ∉ prevK := by
  intro t ht
  unfold broadenStep3 at ht
  split at ht
  · rw [List.mem_filter] at ht
    have hp := ht.2
    simp only [Bool.and_eq_true, Bool.not_eq_true'] at hp
    exact ⟨contains_false_not_mem hp.1, contains_false_not_mem hp.2⟩
  · exact hb t ht

theorem broadenPool_keys (ws : List Track) (want : JStr)
    (avoidK prevK : List JStr) (targetOrchestra : Option JStr)
    (needsBroadening : Bool) (topK : Nat) (base : List Track)
    (hb : ∀ t ∈ base, matchKey (getId t) ∉ avoidK ∧ matchKey (getId t) ∉ prevK) :
    ∀ t ∈ broadenPool ws want avoidK prevK targetOrchestra needsBroadening
        topK base,
      matchKey (getId t) ∉ avoidK ∧ matchKey (getId t) ∉ prevK := by
  intro t ht
  unfold broadenPool at ht
  split at ht
  · exact broadenStep3_keys ws avoidK prevK _
      (broadenStep2_keys ws want avoidK prevK topK _
        (broadenStep1_keys ws want avoidK prevK targetOrchestra base hb)) t ht
  · exact hb t ht

theorem repPool_keys (ws : List Track) (want : JStr)
    (avoidK prevK : List JStr) (targetOrchestra : Option JStr)
    (needsBroadening : Bool) (topK : Nat) (nb : Neighbors) :
    ∀ t ∈ repPool ws want avoidK prevK targetOrchestra needsBroadening
        topK nb,
      matchKey (getId t) ∉ avoidK ∧ matchKey (getId t) ∉ prevK := by
  intro t ht
  unfold repPool at ht
  rw [mem_sortByCost] at ht
  refine broadenPool_keys ws want avoidK prevK targetOrchestra
    needsBroadening topK _ ?_ t ht
  intro u hu
  exact repBase_keys ws want avoidK prevK u
    (narrowOrchestra_subset targetOrchestra needsBroadening topK _ u hu)

theorem repSlim_keys (topK : Nat) (pool : List Track)
    (avoidK prevK : List JStr)
    (hp : ∀ t ∈ pool, matchKey (getId t) ∉ avoidK ∧ matchKey (getId t) ∉ prevK) :
    ∀ r ∈ repSlim topK pool,
      matchKey r.id ∉ avoidK ∧ matchKey r.id ∉ prevK := by
  intro r hr
  unfold repSlim at hr
  rw [List.mem_map] at hr
  obtain ⟨t, ht, rfl⟩ := hr
  exact hp t (List.take_subset _ _ ht)

theorem vcPool_subset (avoidK prevK : List JStr) (slim : List ShortRow) :
    ∀ r ∈ vcPool avoidK prevK slim, r ∈ slim := by
  intro r hr
  unfold vcPool at hr
  split at hr
  · exact hr
  · unfold validCandidatesOf at hr
    exact (List.mem_filter.mp hr).1

theorem vcPool_ne_nil (avoidK prevK : List JStr) (slim : List ShortRow)
    (hs : slim ≠ []) : vcPool avoidK prevK slim ≠ [] := by
  unfold vcPool
  split
  · exact hs
  · next hlen =>
    intro hnil
    exact hlen (by rw [hnil]; rfl)

theorem fallbackRow_mem (avoidK prevK : List JStr) (slim : List ShortRow)
    (randIdx : Nat) (hs : slim ≠ []) :
    ∃ r ∈ slim, fallbackRow avoidK prevK slim randIdx = some r := by
  have hv : vcPool avoidK prevK slim ≠ [] := vcPool_ne_nil avoidK prevK slim hs
  have hlen : 0 < (vcPool avoidK prevK slim).length :=
    List.length_pos.mpr hv
  have hidx : randIdx % (vcPool avoidK prevK slim).length <
      (vcPool avoidK prevK slim).length := Nat.mod_lt _ hlen
  refine ⟨(vcPool avoidK prevK slim).get
      ⟨randIdx % (vcPool avoidK prevK slim).length, hidx⟩,
    vcPool_subset avoidK prevK slim _ (List.get_mem _ _ _), ?_⟩
  unfold fallbackRow
  rw [List.getElem?_eq_getElem hidx]
  rfl

theorem fallbackSelect_sugs (avoidK prevK : List JStr) (topK : Nat)
    (slim : List ShortRow) (randIdx : Nat) :
    ∀ sid ∈ (fallbackSelect avoidK prevK topK slim randIdx).2,
      ∃ r ∈ slim, sid = r.id := by
  intro sid hsid
  unfold fallbackSelect at hsid
  dsimp only at hsid
  rw [List.mem_map] at hsid
  obtain ⟨s, hst, rfl⟩ := hsid
  exact ⟨s, List.take_subset _ _ (List.mem_filter.mp hst).1, rfl⟩

theorem agentPhase_chosen (avoidK prevK : List JStr) (topK : Nat)
    (slim : List ShortRow) (oracle : Option ReplaceOut) (randIdx : Nat)
    (hs : slim ≠ [])
    (hkeys : ∀ r ∈ slim, matchKey r.id ∉ avoidK ∧ matchKey r.id ∉ prevK) :
    ∃ cid, (agentPhase avoidK prevK topK slim oracle randIdx).1 = some cid ∧
      matchKey cid ∉ avoidK ∧ matchKey cid ∉ prevK := by
  have hfb : ∃ cid,
      (fallbackSelect avoidK prevK topK slim randIdx).1 = some cid ∧
      matchKey cid ∉ avoidK ∧ matchKey cid ∉ prevK := by
    obtain ⟨r, hr, hrow⟩ := fallbackRow_mem avoidK prevK slim randIdx hs
    refine ⟨r.id, ?_, (hkeys r hr).1, (hkeys r hr).2⟩
    unfold fallbackSelect
    dsimp only
    rw [hrow]
    rfl
  unfold agentPhase
  cases oracle with
  | none => exact hfb
  | some out =>
    dsimp only
    split
    · exact hfb
    · next hcond =>
      rw [Bool.or_eq_true, not_or] at hcond
      refine ⟨out.chosenId, rfl, ?_, ?_⟩
      · intro hmem
        exact hcond.1 (mem_contains_true hmem)
      · intro hmem
        exact hcond.2 (mem_contains_true hmem)

theorem resolveChosen_key (ws : List Track) (slim : List ShortRow)
    (cid : JStr) (chosen : Track)
    (h : resolveChosen ws slim (some cid) = some chosen) :
    matchKey (getId chosen) = matchKey cid ∨
      ∃ r ∈ slim, matchKey (getId chosen) = matchKey r.id := by
  unfold resolveChosen at h
  simp only [Option.getD_some] at h
  split at h
  · next t heq =>
    have hts : t = chosen := by simpa using h
    subst hts
    exact Or.inl (resolveByAnyId_key heq).2
  · split at h
    · next r hr =>
      refine Or.inr ⟨r, ?_, (resolveByAnyId_key h).2⟩
      cases slim with
      | nil => simp at hr
      | cons a l =>
        have : a = r := by simpa using hr
        rw [← this]
        exact List.mem_cons_self a l
    · exact absurd h (by simp)

theorem suggestionsOutIds_keys (ws : List Track) (avoidK prevK : List JStr)
    (topK : Nat) (rid : JStr) (sugs : List JStr) :
    ∀ sid ∈ suggestionsOutIds ws avoidK prevK topK rid sugs,
      matchKey sid ∉ avoidK ∧ matchKey sid ∉ prevK := by
  intro sid hsid
  unfold suggestionsOutIds at hsid
  have hsid' := List.take_subset _ _ hsid
  rw [List.mem_map] at hsid'
  obtain ⟨s0, hs0, hmap⟩ := hsid'
  have hconds := (List.mem_filter.mp hs0).2
  simp only [Bool.and_eq_true, Bool.not_eq_true'] at hconds
  have hkey : matchKey sid = matchKey s0 := by
    rw [← hmap]
    cases hres : resolveByAnyId ws s0 with
    | some t =>
      dsimp only
      exact (resolveByAnyId_key hres).2
    | none => rfl
  rw [hkey]
  exact ⟨contains_false_not_mem hconds.1.1,
    contains_false_not_mem hconds.1.2⟩

theorem additionalSuggestions_keys (avoidK prevK : List JStr) (topK : Nat)
    (rid : JStr) (slim : List ShortRow) (sugOut : List JStr) :
    ∀ sid ∈ additionalSuggestions avoidK prevK topK rid slim sugOut,
      matchKey sid ∉ avoidK ∧ matchKey sid ∉ prevK := by
  intro sid hsid
  unfold additionalSuggestions at hsid
  rw [List.mem_map] at hsid
  obtain ⟨s0, hs0, rfl⟩ := hsid
  have hconds := (List.mem_filter.mp (List.take_subset _ _ hs0)).2
  simp only [Bool.and_eq_true, Bool.not_eq_true'] at hconds
  exact ⟨contains_false_not_mem hconds.1.1.1,
    contains_false_not_mem hconds.1.1.2⟩

/-- C6.  The replacement endpoint never returns, as the chosen
replacement or among its suggestions, a track id whose normalized key is
in the avoid set or the previously-selected set; and when the oracle's
chosen id violates those sets it is rejected: the agent phase degenerates
to the fallback selection, which substitutes a row of the slim candidate
pool whose key is in neither set. -/
theorem c6_replacement_contract (ws : List Track) (style : JStr)
    (targetOrchestra : Option JStr) (nb : Neighbors)
    (avoidIds prevSelected : List JStr) (topK randIdx : Nat)
    (oracle : Option ReplaceOut) (resp : ReplaceResponse)
    (h : replaceRoute ws style targetOrchestra nb avoidIds prevSelected
      topK randIdx oracle = ReplaceResult.ok resp) :
    (matchKey resp.replacementId ∉ toSet avoidIds ∧
     matchKey resp.replacementId ∉ toSet prevSelected) ∧
    (∀ sid ∈ resp.suggestionIds,
      matchKey sid ∉ toSet avoidIds ∧ matchKey sid ∉ toSet prevSelected) ∧
    (∀ out, oracle = some out →
      matchKey out.chosenId ∈ toSet avoidIds ∨
        matchKey out.chosenId ∈ toSet prevSelected →
      ∃ r ∈ repSlim topK (repPool ws (wantStyleOf style) (toSet avoidIds)
          (toSet prevSelected) targetOrchestra (!prevSelected.isEmpty) topK nb),
        matchKey r.id ∉ toSet avoidIds ∧ matchKey r.id ∉ toSet prevSelected ∧
        (agentPhase (toSet avoidIds) (toSet prevSelected) topK
          (repSlim topK (repPool ws (wantStyleOf style) (toSet avoidIds)
            (toSet prevSelected) targetOrchestra (!prevSelected.isEmpty)
            topK nb)) oracle randIdx).1 = some r.id) := by
  unfold replaceRoute at h
  split at h
  · exact ReplaceResult.noConfusion h
  · set A := toSet avoidIds with hA
    set P := toSet prevSelected with hP
    set slim := repSlim topK (repPool ws (wantStyleOf style) A P
      targetOrchestra (!prevSelected.isEmpty) topK nb) with hslimdef
    unfold replaceAfterPool at h
    split at h
    · exact ReplaceResult.noConfusion h
    · next hlen =>
      have hsne : slim ≠ [] := fun h0 => hlen (by rw [h0]; rfl)
      have hkeys : ∀ r ∈ slim, matchKey r.id ∉ A ∧ matchKey r.id ∉ P := by
        rw [hslimdef]
        exact repSlim_keys topK _ A P (repPool_keys ws (wantStyleOf style)
          A P targetOrchestra (!prevSelected.isEmpty) topK nb)
      obtain ⟨cid, hcid, hcidA, hcidP⟩ :=
        agentPhase_chosen A P topK slim oracle randIdx hsne hkeys
      unfold replaceFinish at h
      rw [hcid] at h
      cases hres : resolveChosen ws slim (some cid) with
      | none =>
        rw [hres] at h
        exact ReplaceResult.noConfusion h
      | some chosen =>
        rw [hres] at h
        dsimp only at h
        have hchA : matchKey (getId chosen) ∉ A ∧
            matchKey (getId chosen) ∉ P := by
          rcases resolveChosen_key ws slim cid chosen hres with hk | ⟨r, hr, hk⟩
          · rw [hk]; exact ⟨hcidA, hcidP⟩
          · rw [hk]; exact hkeys r hr
        rw [not_mem_contains_false hchA.1] at h
        rw [if_neg (by simp)] at h
        have hresp := ReplaceResult.ok.inj h
        obtain ⟨hrid, hsugs⟩ : resp.replacementId = getId chosen ∧
            resp.suggestionIds = finalSuggestions ws A P topK
              (getId chosen) slim
              (agentPhase A P topK slim oracle randIdx).2 := by
          rw [← hresp]
          exact ⟨rfl, rfl⟩
        refine ⟨?_, ?_, ?_⟩
        · rw [hrid]
          exact hchA
        · intro sid hsid
          rw [hsugs] at hsid
          unfold finalSuggestions at hsid
          rw [List.mem_append] at hsid
          rcases hsid with hsid | hsid
          · exact suggestionsOutIds_keys ws A P topK _ _ sid hsid
          · exact additionalSuggestions_keys A P topK _ slim _ sid hsid
        · intro out hout hviol
          subst hout
          have hcondtrue : (A.contains (matchKey out.chosenId) ||
              P.contains (matchKey out.chosenId)) = true := by
            rw [Bool.or_eq_true]
            rcases hviol with hv | hv
            · exact Or.inl (mem_contains_true hv)
            · exact Or.inr (mem_contains_true hv)
          obtain ⟨r, hr, hrow⟩ := fallbackRow_mem A P slim randIdx hsne
          refine ⟨r, hr, (hkeys r hr).1, (hkeys r hr).2, ?_⟩
          show (agentPhase A P topK slim (some out) randIdx).1 = some r.id
          unfold agentPhase
          dsimp only
          rw [if_pos hcondtrue]
          unfold fallbackSelect
          dsimp only
          rw [hrow]
          rfl

/-- The single working-set track of the C6 witness. -/
def c6Track : Track :=
  { id := jstr "r1", title := jstr "T", artist := jstr "A"
    genres := [jstr "tango"], styles := []
    audioDuration := none, formatDurationSec := none, duration := none
    durationMs := none, length := none, bpm := none, energy := none
    camelotKey := none, key := none, year := none, album := jstr "" }

/-- The C6 witness working set. -/
def c6WS : List Track := [c6Track]

/-- Empty neighbor data for the C6 witness. -/
def c6Nb : Neighbors :=
  { prevKey := none, nextKey := none, prevBpm := none, nextBpm := none
    prevEn := none, nextEn := none }

/-- A C6 witness oracle that proposes the avoided id `x`. -/
def c6Oracle : Option ReplaceOut :=
  some { chosenId := jstr "x", suggestions := [jstr "x"] }

/-- The expected C6 witness response: the fallback substituted `r1` and
the avoided suggestion was dropped. -/
def c6Resp : ReplaceResponse :=
  { replacementId := jstr "r1", suggestionIds := [] }

/-- Witness for `c6_replacement_contract`: a one-track pool, an avoid set
holding `x`, and an oracle that proposes the avoided `x`; the route
substitutes `r1`. -/
theorem c6_replacement_contract_witness :
    replaceRoute c6WS (jstr "Tango") none c6Nb [jstr "x"] [] 6 0 c6Oracle =
      ReplaceResult.ok c6Resp ∧
    matchKey c6Resp.replacementId ∉ toSet [jstr "x"] :=
  ⟨by decide,
   ((c6_replacement_contract c6WS (jstr "Tango") none c6Nb [jstr "x"] [] 6 0
      c6Oracle c6Resp (by decide)).1).1⟩
